import Mathlib

/-!
The PHY rate resolver and the range-info migration of ralink-info.

A shallow embedding of `trunk/user/ralink-info/src/ralink-info.c`:

* `getMCS`, `MCSMappingRateTable`, `getRate` (lines 275-353): decoding of a packed
  transmit setting into a table index and a bit rate;
* `struct iw15_range`, `iwr15_off`, `ralink_get_range_info` (lines 57-217): migration of
  the range-info buffer from the WE-9..15 layout to the current `struct iw_range`, and the
  warn-once version check.

C `int` values are modelled by `Int` (for the bit-fields of a 16-bit word every value
computed here stays far below `2^31`), unsigned bit-fields and bytes by `Nat`, the
`(unsigned char)` cast by `% 256`, C's `/` and `%` on `int` by `Int.tdiv` and `Int.tmod`,
memory by functions from byte offsets to byte values. What the headers outside these
sources declare (`ralink_priv.h`, `<iwlib.h>`, `<linux/wireless.h>`) is either a parameter
(`Headers`) or a definition marked as modelled.
-/

namespace RalinkInfo

/-! ## Transmit settings -/

/-- Modelled from the spec: the PHY mode constants of `ralink_priv.h` (a header that is not
part of the sources at hand). The spec lists the modes in the order CCK, OFDM, HT-mixed,
HT-greenfield, VHT and compares them with `≥`; the values are the driver's. -/
def MODE_CCK : Nat := 0

/-- Modelled from the spec: see `MODE_CCK`. -/
def MODE_OFDM : Nat := 1

/-- Modelled from the spec: see `MODE_CCK`. -/
def MODE_HTMIX : Nat := 2

/-- Modelled from the spec: see `MODE_CCK`. -/
def MODE_HTGREENFIELD : Nat := 3

/-- Modelled from the spec: see `MODE_CCK`. -/
def MODE_VHT : Nat := 4

/-- Modelled from the spec: the bandwidth constants of `ralink_priv.h`; the spec gives the
bandwidth index 0 for 20 MHz and 1 for 40 MHz, 80 MHz is the next one. -/
def BW_20 : Nat := 0

/-- Modelled from the spec: see `BW_20`. -/
def BW_40 : Nat := 1

/-- Modelled from the spec: see `BW_20`. -/
def BW_80 : Nat := 2

/-- The `field` view of `MACHTTRANSMIT_SETTING`: the bit-fields that `ralink-info.c`
reads. The widths of the bit-fields are declared in `ralink_priv.h`; the theorems below
state the bounds they need on the field values. -/
structure MACHTTRANSMIT_SETTING where
  MCS : Nat
  ldpc : Nat
  BW : Nat
  ShortGI : Nat
  STBC : Nat
  MODE : Nat
deriving Repr, DecidableEq

/-- The cast `(unsigned char)x` of an unsigned value, as an `int`. -/
def uchar (x : Nat) : Int := ((x % 256 : Nat) : Int)

/-- Function `getMCS` (lines 275-284). -/
def getMCS (HTSetting : MACHTTRANSMIT_SETTING) : Int :=
  let mcs_1ss : Int := (HTSetting.MCS : Int)
  if HTSetting.MODE ≥ MODE_VHT then
    if mcs_1ss > 9 then Int.tmod mcs_1ss 16 else mcs_1ss
  else mcs_1ss

/-- Table `MCSMappingRateTable` (lines 286-319), verbatim. -/
def MCSMappingRateTable : List Int := [
  2, 4, 11, 22,
  12, 18, 24, 36, 48, 72, 96, 108,
  13, 26, 39, 52, 78, 104, 117, 130, 26, 52, 78, 104, 156, 208, 234,
  260,
  39, 78, 117, 156, 234, 312, 351, 390,
  27, 54, 81, 108, 162, 216, 243, 270, 54, 108, 162, 216, 324, 432, 486,
  540,
  81, 162, 243, 324, 486, 648, 729, 810,
  14, 29, 43, 57, 87, 115, 130, 144, 29, 59, 87, 115, 173, 230, 260,
  288,
  43, 87, 130, 173, 260, 317, 390, 433,
  30, 60, 90, 120, 180, 240, 270, 300, 60, 120, 180, 240, 360, 480, 540,
  600,
  90, 180, 270, 360, 540, 720, 810, 900,
  13, 26, 39, 52, 78, 104, 117, 130, 156,
  27, 54, 81, 108, 162, 216, 243, 270, 324, 360,
  59, 117, 176, 234, 351, 468, 527, 585, 702, 780,
  14, 29, 43, 57, 87, 115, 130, 144, 173,
  30, 60, 90, 120, 180, 240, 270, 300, 360, 400,
  65, 130, 195, 260, 390, 520, 585, 650, 780, 867]

/-- The local `rate_count`: `sizeof(MCSMappingRateTable) / sizeof(int)` (line 322). -/
def rate_count : Int := (MCSMappingRateTable.length : Int)

/-- A read `MCSMappingRateTable[i]`: defined only inside the array. -/
def MCSMappingRateTable_read (i : Int) : Option Int :=
  if 0 ≤ i ∧ i < rate_count then MCSMappingRateTable[i.toNat]? else none

/-- The locals `(num_ss_vht, mcs_1ss)` of `getRate` after lines 327-332, from the `MCS`
field. -/
def getRate_vht_ss (MCS : Nat) : Int × Int :=
  let mcs_1ss : Int := (MCS : Int)
  if mcs_1ss > 9 then (Int.tdiv mcs_1ss 16 + 1, Int.tmod mcs_1ss 16) else (1, mcs_1ss)

/-- The locals `(rate_index, num_ss_vht)` of `getRate` after the mode dispatch
(lines 323-344). -/
def getRate_index (HTSetting : MACHTTRANSMIT_SETTING) : Int × Int :=
  let rate_index : Int := 0
  let num_ss_vht : Int := 1
  if HTSetting.MODE ≥ MODE_VHT then
    let num_ss_vht := (getRate_vht_ss HTSetting.MCS).1
    let mcs_1ss := (getRate_vht_ss HTSetting.MCS).2
    if HTSetting.BW = BW_20 then
      (108 + uchar HTSetting.ShortGI * 29 + mcs_1ss, num_ss_vht)
    else if HTSetting.BW = BW_40 then
      (117 + uchar HTSetting.ShortGI * 29 + mcs_1ss, num_ss_vht)
    else if HTSetting.BW = BW_80 then
      (127 + uchar HTSetting.ShortGI * 29 + mcs_1ss, num_ss_vht)
    else (rate_index, num_ss_vht)
  else if HTSetting.MODE ≥ MODE_HTMIX then
    (12 + uchar HTSetting.BW * 24 + uchar HTSetting.ShortGI * 48 + uchar HTSetting.MCS,
      num_ss_vht)
  else if HTSetting.MODE = MODE_OFDM then
    (uchar HTSetting.MCS + 4, num_ss_vht)
  else if HTSetting.MODE = MODE_CCK then
    (uchar HTSetting.MCS, num_ss_vht)
  else (rate_index, num_ss_vht)

/-- The two clamps of `getRate` (lines 346-350). -/
def getRate_clamp (rate_index : Int) : Int :=
  let rate_index := if rate_index < 0 then 0 else rate_index
  if rate_index ≥ rate_count then rate_count - 1 else rate_index

/-- Function `getRate` (lines 321-353); `none` would be a read outside
`MCSMappingRateTable`. -/
def getRate (HTSetting : MACHTTRANSMIT_SETTING) : Option Int :=
  let rate_index := getRate_clamp (getRate_index HTSetting).1
  let num_ss_vht := (getRate_index HTSetting).2
  (MCSMappingRateTable_read rate_index).map fun v => Int.tdiv (v * num_ss_vht * 5) 10

/-- The `field` view of `MACHTTRANSMIT_SETTING_INIC`: the bit-fields read by
`getRate_inic`. -/
structure MACHTTRANSMIT_SETTING_INIC where
  MCS : Nat
  BW : Nat
  ShortGI : Nat
  STBC : Nat
  MODE : Nat
deriving Repr, DecidableEq

/-- The local `rate_index` of `getRate_inic` after the mode dispatch (lines 511-518). -/
def getRate_inic_index (HTSetting : MACHTTRANSMIT_SETTING_INIC) : Int :=
  let rate_index : Int := 0
  if HTSetting.MODE ≥ MODE_HTMIX then
    12 + uchar HTSetting.BW * 24 + uchar HTSetting.ShortGI * 48 + uchar HTSetting.MCS
  else if HTSetting.MODE = MODE_OFDM then
    uchar HTSetting.MCS + 4
  else if HTSetting.MODE = MODE_CCK then
    uchar HTSetting.MCS
  else rate_index

/-- Function `getRate_inic` (lines 509-527); `none` would be a read outside
`MCSMappingRateTable`. -/
def getRate_inic (HTSetting : MACHTTRANSMIT_SETTING_INIC) : Option Int :=
  let rate_index := getRate_clamp (getRate_inic_index HTSetting)
  (MCSMappingRateTable_read rate_index).map fun v => Int.tdiv (v * 5) 10

/-! ## The rate formula in the words of the specification -/

/-- Stream multiplier of the specification: 1, except `MCS / 16 + 1` for VHT with
`MCS > 9`. -/
def spec_streams (s : MACHTTRANSMIT_SETTING) : Int :=
  if s.MODE = MODE_VHT ∧ s.MCS > 9 then ((s.MCS / 16 + 1 : Nat) : Int) else 1

/-- Per-stream mcs of the specification: `MCS`, except `MCS mod 16` for VHT with
`MCS > 9`. -/
def spec_mcs (s : MACHTTRANSMIT_SETTING) : Int :=
  if s.MODE = MODE_VHT ∧ s.MCS > 9 then ((s.MCS % 16 : Nat) : Int) else (s.MCS : Int)

/-- Base offset of the VHT sub-tables: 108, 117, 127 for 20, 40, 80 MHz. -/
def spec_vht_base (BW : Nat) : Int :=
  if BW = BW_20 then 108 else if BW = BW_40 then 117 else 127

/-- Table index of the specification. -/
def spec_idx (s : MACHTTRANSMIT_SETTING) : Int :=
  if s.MODE = MODE_VHT then spec_vht_base s.BW + (s.ShortGI : Int) * 29 + spec_mcs s
  else if s.MODE = MODE_HTMIX ∨ s.MODE = MODE_HTGREENFIELD then
    12 + (s.BW : Int) * 24 + (s.ShortGI : Int) * 48 + (s.MCS : Int)
  else if s.MODE = MODE_OFDM then (s.MCS : Int) + 4
  else (s.MCS : Int)

/-- The clamp of the specification: `clamp(idx, 0, 165)`. -/
def spec_clamp (idx : Int) : Int := max 0 (min idx 165)

/-- Rate of the specification:
`(MCSMappingRateTable[clamp(idx, 0, 165)] * streams * 5) / 10`, truncating. -/
def spec_rate (s : MACHTTRANSMIT_SETTING) : Int :=
  Int.tdiv (MCSMappingRateTable.getD (spec_clamp (spec_idx s)).toNat 0 * spec_streams s * 5) 10

/-! ## Range information: layouts -/

/-- Size and alignment of a C type on the target. -/
structure CType where
  size : Nat
  align : Nat
deriving Repr, DecidableEq

/-- The type `__u8`. -/
def CType.u8 : CType := ⟨1, 1⟩

/-- The type `__u16`. -/
def CType.u16 : CType := ⟨2, 2⟩

/-- The type `__u32`. -/
def CType.u32 : CType := ⟨4, 4⟩

/-- The type `__s32`. -/
def CType.s32 : CType := ⟨4, 4⟩

/-- Modelled from the spec: `struct iw_freq` of `<linux/wireless.h>` (not part of the
sources at hand), which the spec describes as mantissa, exponent and flags: a `__s32`, a
`__s16` and two `__u8`, 8 bytes aligned on 4. -/
def CType.iw_freq : CType := ⟨8, 4⟩

/-- Modelled from the spec: `struct iw_quality` of `<linux/wireless.h>` (not part of the
sources at hand), the quality statistics: four `__u8`. -/
def CType.iw_quality : CType := ⟨4, 1⟩

/-- Member names of the range structures: first the members of `struct iw15_range`
(lines 69-107), which `struct iw_range` has too, then those that only `struct iw_range`
has. -/
inductive iw_field
  | throughput | min_nwid | max_nwid | num_channels | num_frequency | freq
  | sensitivity | max_qual | num_bitrates | bitrate
  | min_rts | max_rts | min_frag | max_frag
  | min_pmp | max_pmp | min_pmt | max_pmt | pmp_flags | pmt_flags | pm_capa
  | encoding_size | num_encoding_sizes | max_encoding_tokens
  | txpower_capa | num_txpower | txpower
  | we_version_compiled | we_version_source
  | retry_capa | retry_flags | r_time_flags
  | min_retry | max_retry | min_r_time | max_r_time | avg_qual
  | old_num_channels | old_num_frequency | scan_capa | event_capa
  | encoding_login_index | enc_capa | min_pms | max_pms | pms_flags
  | modul_capa | bitrate_capa
deriving Repr, DecidableEq

/-- A member declaration: name, element type, number of elements (1 for a scalar). -/
abbrev Member := iw_field × CType × Nat

/-- The constant `IW15_MAX_FREQUENCIES` (line 57). -/
def IW15_MAX_FREQUENCIES : Nat := 16

/-- The constant `IW15_MAX_BITRATES` (line 58). -/
def IW15_MAX_BITRATES : Nat := 8

/-- The constant `IW15_MAX_TXPOWER` (line 59). -/
def IW15_MAX_TXPOWER : Nat := 8

/-- The constant `IW15_MAX_ENCODING_SIZES` (line 60). -/
def IW15_MAX_ENCODING_SIZES : Nat := 8

/-- The declaration `struct iw15_range` (lines 69-107), member by member. -/
def iw15_range : List Member := [
  (.throughput, .u32, 1),
  (.min_nwid, .u32, 1),
  (.max_nwid, .u32, 1),
  (.num_channels, .u16, 1),
  (.num_frequency, .u8, 1),
  (.freq, .iw_freq, IW15_MAX_FREQUENCIES),
  (.sensitivity, .s32, 1),
  (.max_qual, .iw_quality, 1),
  (.num_bitrates, .u8, 1),
  (.bitrate, .s32, IW15_MAX_BITRATES),
  (.min_rts, .s32, 1),
  (.max_rts, .s32, 1),
  (.min_frag, .s32, 1),
  (.max_frag, .s32, 1),
  (.min_pmp, .s32, 1),
  (.max_pmp, .s32, 1),
  (.min_pmt, .s32, 1),
  (.max_pmt, .s32, 1),
  (.pmp_flags, .u16, 1),
  (.pmt_flags, .u16, 1),
  (.pm_capa, .u16, 1),
  (.encoding_size, .u16, IW15_MAX_ENCODING_SIZES),
  (.num_encoding_sizes, .u8, 1),
  (.max_encoding_tokens, .u8, 1),
  (.txpower_capa, .u16, 1),
  (.num_txpower, .u8, 1),
  (.txpower, .s32, IW15_MAX_TXPOWER),
  (.we_version_compiled, .u8, 1),
  (.we_version_source, .u8, 1),
  (.retry_capa, .u16, 1),
  (.retry_flags, .u16, 1),
  (.r_time_flags, .u16, 1),
  (.min_retry, .s32, 1),
  (.max_retry, .s32, 1),
  (.min_r_time, .s32, 1),
  (.max_r_time, .s32, 1),
  (.avg_qual, .iw_quality, 1)]

/-- The least multiple of `a` that is at least `o`. -/
def alignUp (o a : Nat) : Nat := (o + a - 1) / a * a

/-- C structure layout: every member at the next offset aligned for its type. Gives the
offset of each member, starting from offset `o`. -/
def layoutFrom (o : Nat) : List Member → List (iw_field × Nat)
  | [] => []
  | (f, t, n) :: rest =>
    (f, alignUp o t.align) :: layoutFrom (alignUp o t.align + n * t.size) rest

/-- The offset of member `f` in the structure declared by `decl`. -/
def offsetof (decl : List Member) (f : iw_field) : Nat :=
  ((layoutFrom 0 decl).lookup f).getD 0

/-- The end of the last member of a structure laid out from offset `o`. -/
def layoutEnd (o : Nat) : List Member → Nat
  | [] => o
  | (_, t, n) :: rest => layoutEnd (alignUp o t.align + n * t.size) rest

/-- The size of the structure declared by `decl`: the end of its last member, rounded up
to the largest alignment of its members. -/
def sizeofStruct (decl : List Member) : Nat :=
  alignUp (layoutEnd 0 decl) (decl.foldl (fun a m => max a m.2.1.align) 1)

/-- The macro `iwr15_off(f)` (line 122): offset of `f` in `struct iw15_range`. -/
def iwr15_off (f : iw_field) : Nat := offsetof iw15_range f

/-- What `<iwlib.h>` and `<linux/wireless.h>`, which are not part of the sources at hand,
supply to `ralink_get_range_info`: the two version constants, `sizeof(struct iw_range)`,
and the macro `iwr_off(f)` (line 123), offset of `f` in `struct iw_range`. -/
structure Headers where
  WE_VERSION : Int
  WE_MAX_VERSION : Int
  sizeof_iw_range : Nat
  iwr_off : iw_field → Nat

/-- Modelled from the spec: the declaration `struct iw_range` of `<linux/wireless.h>` (not
part of the sources at hand). The spec describes the modern record only by how it differs
from the WE-15 one: new members are interposed after the first three, `sensitivity` comes
before the new home of the frequency block, `num_bitrates` comes right after the pair of
quality statistics, `avg_qual` sits next to `max_qual`, and the frequency list moves to
the end. The member list is that of Wireless Extensions 22, with `IW_MAX_BITRATES` 32,
`IW_MAX_ENCODING_SIZES` 8, `IW_MAX_TXPOWER` 8 and `IW_MAX_FREQUENCIES` 32: an instance of
what the headers may supply. -/
def iw_range_we22 : List Member := [
  (.throughput, .u32, 1),
  (.min_nwid, .u32, 1),
  (.max_nwid, .u32, 1),
  (.old_num_channels, .u16, 1),
  (.old_num_frequency, .u8, 1),
  (.scan_capa, .u8, 1),
  (.event_capa, .u32, 6),
  (.sensitivity, .s32, 1),
  (.max_qual, .iw_quality, 1),
  (.avg_qual, .iw_quality, 1),
  (.num_bitrates, .u8, 1),
  (.bitrate, .s32, 32),
  (.min_rts, .s32, 1),
  (.max_rts, .s32, 1),
  (.min_frag, .s32, 1),
  (.max_frag, .s32, 1),
  (.min_pmp, .s32, 1),
  (.max_pmp, .s32, 1),
  (.min_pmt, .s32, 1),
  (.max_pmt, .s32, 1),
  (.pmp_flags, .u16, 1),
  (.pmt_flags, .u16, 1),
  (.pm_capa, .u16, 1),
  (.encoding_size, .u16, 8),
  (.num_encoding_sizes, .u8, 1),
  (.max_encoding_tokens, .u8, 1),
  (.encoding_login_index, .u8, 1),
  (.txpower_capa, .u16, 1),
  (.num_txpower, .u8, 1),
  (.txpower, .s32, 8),
  (.we_version_compiled, .u8, 1),
  (.we_version_source, .u8, 1),
  (.retry_capa, .u16, 1),
  (.retry_flags, .u16, 1),
  (.r_time_flags, .u16, 1),
  (.min_retry, .s32, 1),
  (.max_retry, .s32, 1),
  (.min_r_time, .s32, 1),
  (.max_r_time, .s32, 1),
  (.num_channels, .u16, 1),
  (.num_frequency, .u8, 1),
  (.freq, .iw_freq, 32),
  (.enc_capa, .u32, 1),
  (.min_pms, .s32, 1),
  (.max_pms, .s32, 1),
  (.pms_flags, .u16, 1),
  (.modul_capa, .s32, 1),
  (.bitrate_capa, .u32, 1)]

/-- Modelled from the spec: the headers of Wireless Extensions 22 as wireless tools 29 ship
them (not part of the sources at hand): recommended version 21, maximum supported
version 22, and the layout of `iw_range_we22`. -/
def headers_we22 : Headers where
  WE_VERSION := 21
  WE_MAX_VERSION := 22
  sizeof_iw_range := sizeofStruct iw_range_we22
  iwr_off := offsetof iw_range_we22

/-! ## Range information: `ralink_get_range_info` -/

/-- Byte-addressed memory of one object: the byte stored at each offset. -/
abbrev Mem := Nat → Nat

/-- The call `memcpy(dest + d, src + s, n)` between two distinct objects. -/
def memcpy (dest : Mem) (d : Nat) (src : Mem) (s : Nat) (n : Nat) : Mem :=
  fun i => if d ≤ i ∧ i < d + n then src (s + (i - d)) else dest i

/-- The call `bzero(dest + d, n)`. -/
def bzero (dest : Mem) (d : Nat) (n : Nat) : Mem :=
  fun i => if d ≤ i ∧ i < d + n then 0 else dest i

/-- A store of the byte `v` at offset `d`. -/
def storeByte (dest : Mem) (d : Nat) (v : Nat) : Mem :=
  fun i => if i = d then v else dest i

/-- The `else` branch of `ralink_get_range_info` (lines 151-169): the record is zeroed,
then filled by eight block copies from the WE-15 buffer. -/
def legacy_copy (H : Headers) (range buffer : Mem) : Mem :=
  let range := bzero range 0 H.sizeof_iw_range
  let range := memcpy range 0 buffer 0 (iwr15_off .num_channels)
  let range := memcpy range (H.iwr_off .num_channels) buffer (iwr15_off .num_channels)
    (iwr15_off .sensitivity - iwr15_off .num_channels)
  let range := memcpy range (H.iwr_off .sensitivity) buffer (iwr15_off .sensitivity)
    (iwr15_off .num_bitrates - iwr15_off .sensitivity)
  let range := memcpy range (H.iwr_off .num_bitrates) buffer (iwr15_off .num_bitrates)
    (iwr15_off .min_rts - iwr15_off .num_bitrates)
  let range := memcpy range (H.iwr_off .min_rts) buffer (iwr15_off .min_rts)
    (iwr15_off .txpower_capa - iwr15_off .min_rts)
  let range := memcpy range (H.iwr_off .txpower_capa) buffer (iwr15_off .txpower_capa)
    (iwr15_off .txpower - iwr15_off .txpower_capa)
  let range := memcpy range (H.iwr_off .txpower) buffer (iwr15_off .txpower)
    (iwr15_off .avg_qual - iwr15_off .txpower)
  let range := memcpy range (H.iwr_off .avg_qual) buffer (iwr15_off .avg_qual)
    CType.iw_quality.size
  range

/-- A warning printed on `stderr` by the version check, with the values it prints. -/
inductive Warning
  | ancient
  | future (compiled : Nat) (supported : Int)
  | recommend (source : Nat) (compiled : Nat)
deriving Repr, DecidableEq

/-- The three tests of the version check (lines 176-205) on the record `range`, in the
order of the code. -/
def version_warnings (H : Headers) (range : Mem) : List Warning :=
  let we_version_compiled := range (H.iwr_off .we_version_compiled)
  let we_version_source := range (H.iwr_off .we_version_source)
  (if we_version_compiled ≤ 10 then [Warning.ancient] else []) ++
  (if (we_version_compiled : Int) > H.WE_MAX_VERSION then
    [Warning.future we_version_compiled H.WE_VERSION] else []) ++
  (if we_version_compiled > 10 ∧ we_version_compiled < we_version_source then
    [Warning.recommend we_version_source we_version_compiled] else [])

/-- The memory that `ralink_get_range_info` works on: the record `*range`, the raw
`buffer`, the global `iw_ignore_version_sp` (line 126) and what was printed on `stderr`. -/
structure RangeState where
  range : Mem
  buffer : Mem
  iw_ignore_version_sp : Int
  stderr : List Warning

/-- The buffer after lines 140-143: for a length below 300 the compiled version is forced
to 9 in the buffer itself. -/
def guess_version (H : Headers) (buffer : Mem) (length : Int) : Mem :=
  if length < 300 then storeByte buffer (H.iwr_off .we_version_compiled) 9 else buffer

/-- Function `ralink_get_range_info` (lines 132-217): the returned value and the memory
after the call. -/
def ralink_get_range_info (H : Headers) (st : RangeState) (length : Int) :
    Int × RangeState :=
  let buffer := guess_version H st.buffer length
  let range :=
    if buffer (H.iwr_off .we_version_compiled) > 15 then
      memcpy st.range 0 buffer 0 H.sizeof_iw_range
    else
      legacy_copy H st.range buffer
  let stderr :=
    if st.iw_ignore_version_sp = 0 then st.stderr ++ version_warnings H range
    else st.stderr
  (0, { range := range, buffer := buffer, iw_ignore_version_sp := 1, stderr := stderr })

/-! ## Range information: the block copies as data -/

/-- One block copy: destination offset in the record, source offset in the buffer, and
length. -/
structure Block where
  dst : Nat
  src : Nat
  len : Nat
deriving Repr, DecidableEq

/-- The eight block copies of lines 155-169, in the order of the code. -/
def legacy_blocks (H : Headers) : List Block := [
  ⟨0, 0, iwr15_off .num_channels⟩,
  ⟨H.iwr_off .num_channels, iwr15_off .num_channels,
    iwr15_off .sensitivity - iwr15_off .num_channels⟩,
  ⟨H.iwr_off .sensitivity, iwr15_off .sensitivity,
    iwr15_off .num_bitrates - iwr15_off .sensitivity⟩,
  ⟨H.iwr_off .num_bitrates, iwr15_off .num_bitrates,
    iwr15_off .min_rts - iwr15_off .num_bitrates⟩,
  ⟨H.iwr_off .min_rts, iwr15_off .min_rts, iwr15_off .txpower_capa - iwr15_off .min_rts⟩,
  ⟨H.iwr_off .txpower_capa, iwr15_off .txpower_capa,
    iwr15_off .txpower - iwr15_off .txpower_capa⟩,
  ⟨H.iwr_off .txpower, iwr15_off .txpower, iwr15_off .avg_qual - iwr15_off .txpower⟩,
  ⟨H.iwr_off .avg_qual, iwr15_off .avg_qual, CType.iw_quality.size⟩]

/-- Offset `i` of the record is written by the block copy `b`. -/
def Block.covers (b : Block) (i : Nat) : Prop := b.dst ≤ i ∧ i < b.dst + b.len

/-- The destinations of two block copies have no byte in common. -/
def Block.disjoint (a b : Block) : Prop := a.dst + a.len ≤ b.dst ∨ b.dst + b.len ≤ a.dst

/-- The block copies `bs` run in order on the record `range`, reading from `buffer`. -/
def run_blocks (buffer : Mem) : List Block → Mem → Mem
  | [], range => range
  | b :: bs, range => run_blocks buffer bs (memcpy range b.dst buffer b.src b.len)

/-- The member `m` of `struct iw15_range` lies in the source range of the block copy `b`,
and `struct iw_range` has it at the place where `b` puts it. -/
def Block.carries (H : Headers) (b : Block) (m : Member) : Prop :=
  b.src ≤ iwr15_off m.1 ∧ iwr15_off m.1 + m.2.2 * m.2.1.size ≤ b.src + b.len ∧
    H.iwr_off m.1 = b.dst + (iwr15_off m.1 - b.src)

/-- What the legacy path needs from `struct iw_range`: every member of `struct iw15_range`
is at the same distance from the first member of its block in both structures, and the
destinations of the eight block copies do not overlap. -/
def Headers.Compatible (H : Headers) : Prop :=
  (∀ m ∈ iw15_range, ∃ b ∈ legacy_blocks H, b.carries H m) ∧
    (legacy_blocks H).Pairwise Block.disjoint

instance (b : Block) (i : Nat) : Decidable (b.covers i) := by
  unfold Block.covers; infer_instance

instance (a b : Block) : Decidable (a.disjoint b) := by
  unfold Block.disjoint; infer_instance

instance (H : Headers) (b : Block) (m : Member) : Decidable (b.carries H m) := by
  unfold Block.carries; infer_instance

instance (H : Headers) : Decidable H.Compatible := by
  unfold Headers.Compatible; infer_instance

/-- A buffer and record used to exercise `ralink_get_range_info`: byte `i` of the buffer
is `i mod 251 + 1`, except the compiled version `v` at offset 280; the record is filled
with 255 beforehand. -/
def demoState (v : Nat) : RangeState where
  range := fun _ => 255
  buffer := fun i => if i = 280 then v else i % 251 + 1
  iw_ignore_version_sp := 0
  stderr := []

/-! ## The VHT sub-tables in the words of the specification -/

/-- First index of the VHT sub-table of a bandwidth and GI: 108 / 137 for 20 MHz,
117 / 146 for 40 MHz, 127 / 156 for 80 MHz (long / short GI). -/
def vht_subtable_start (BW ShortGI : Nat) : Nat :=
  if BW = BW_20 then (if ShortGI = 0 then 108 else 137)
  else if BW = BW_40 then (if ShortGI = 0 then 117 else 146)
  else (if ShortGI = 0 then 127 else 156)

/-- Number of entries of the VHT sub-table of a bandwidth: 9 for 20 MHz, 10 for 40 and
80 MHz. -/
def vht_subtable_len (BW : Nat) : Nat := if BW = BW_20 then 9 else 10

/-- The rows of `MCSMappingRateTable` that the comments of lines 307-318 give to each VHT
bandwidth and GI. -/
def vht_subtable_row (BW ShortGI : Nat) : List Int :=
  if BW = BW_20 then
    (if ShortGI = 0 then [13, 26, 39, 52, 78, 104, 117, 130, 156]
     else [14, 29, 43, 57, 87, 115, 130, 144, 173])
  else if BW = BW_40 then
    (if ShortGI = 0 then [27, 54, 81, 108, 162, 216, 243, 270, 324, 360]
     else [30, 60, 90, 120, 180, 240, 270, 300, 360, 400])
  else
    (if ShortGI = 0 then [59, 117, 176, 234, 351, 468, 527, 585, 702, 780]
     else [65, 130, 195, 260, 390, 520, 585, 650, 780, 867])

set_option maxRecDepth 100000

/-! ## Rate resolver: lemmas -/

theorem rate_count_eq : rate_count = 166 := by decide

theorem tdiv16_natCast (n : Nat) : Int.tdiv (n : Int) 16 = ((n / 16 : Nat) : Int) := by
  rw [Int.tdiv_eq_ediv (Int.ofNat_nonneg n) (by norm_num)]
  norm_cast

theorem tmod16_natCast (n : Nat) : Int.tmod (n : Int) 16 = ((n % 16 : Nat) : Int) := by
  rw [Int.tmod_eq_emod (Int.ofNat_nonneg n) (by norm_num)]
  norm_cast

theorem uchar_of_lt {x : Nat} (h : x < 256) : uchar x = (x : Int) := by
  unfold uchar
  rw [Nat.mod_eq_of_lt h]

theorem uchar_nonneg (x : Nat) : 0 ≤ uchar x := by
  unfold uchar
  exact Int.ofNat_nonneg _

theorem getRate_clamp_bounds (i : Int) : 0 ≤ getRate_clamp i ∧ getRate_clamp i ≤ 165 := by
  unfold getRate_clamp
  simp only [rate_count_eq]
  split_ifs <;> omega

theorem getRate_clamp_eq_spec (i : Int) : getRate_clamp i = spec_clamp i := by
  unfold getRate_clamp spec_clamp
  simp only [rate_count_eq]
  split_ifs <;> omega

theorem getRate_clamp_of_bounds {i : Int} (h0 : 0 ≤ i) (h1 : i ≤ 165) :
    getRate_clamp i = i := by
  unfold getRate_clamp
  simp only [rate_count_eq]
  split_ifs <;> omega

theorem read_of_bounds {i : Int} (h0 : 0 ≤ i) (h1 : i ≤ 165) :
    MCSMappingRateTable_read i = some (MCSMappingRateTable.getD i.toNat 0) := by
  unfold MCSMappingRateTable_read
  have hlen : MCSMappingRateTable.length = 166 := by decide
  have hlt : i.toNat < MCSMappingRateTable.length := by omega
  rw [if_pos ⟨h0, by rw [rate_count_eq]; omega⟩, List.getD_eq_getElem?_getD,
    List.getElem?_eq_getElem hlt]
  rfl

theorem getRate_eq (s : MACHTTRANSMIT_SETTING) :
    getRate s = some (Int.tdiv (MCSMappingRateTable.getD
      (getRate_clamp (getRate_index s).1).toNat 0 * (getRate_index s).2 * 5) 10) := by
  unfold getRate
  obtain ⟨h0, h1⟩ := getRate_clamp_bounds (getRate_index s).1
  simp only [read_of_bounds h0 h1, Option.map_some']

theorem getRate_vht_ss_eq (n : Nat) :
    getRate_vht_ss n =
      if n > 9 then (((n / 16 + 1 : Nat) : Int), ((n % 16 : Nat) : Int)) else (1, (n : Int)) := by
  unfold getRate_vht_ss
  simp only [tdiv16_natCast, tmod16_natCast]
  by_cases h : n > 9
  · have h' : (n : Int) > 9 := by omega
    simp [h, h']
  · have h' : ¬ (n : Int) > 9 := by omega
    simp [h, h']

theorem table_nonneg (n : Nat) : 0 ≤ MCSMappingRateTable.getD n 0 := by
  rw [List.getD_eq_getElem?_getD]
  by_cases h : n < MCSMappingRateTable.length
  · rw [List.getElem?_eq_getElem h]
    have hall : ∀ v ∈ MCSMappingRateTable, (0 : Int) ≤ v := by decide
    exact hall _ (List.getElem_mem _)
  · rw [List.getElem?_eq_none (by omega)]
    simp

theorem getRate_index_eq_spec (s : MACHTTRANSMIT_SETTING)
    (hmode : s.MODE = MODE_CCK ∨ s.MODE = MODE_OFDM ∨ s.MODE = MODE_HTMIX ∨
      s.MODE = MODE_HTGREENFIELD ∨ s.MODE = MODE_VHT)
    (hht : s.MODE = MODE_HTMIX ∨ s.MODE = MODE_HTGREENFIELD → s.BW = BW_20 ∨ s.BW = BW_40)
    (hvht : s.MODE = MODE_VHT → s.BW = BW_20 ∨ s.BW = BW_40 ∨ s.BW = BW_80)
    (hgi : s.ShortGI < 256) (hmcs : s.MCS < 256) :
    getRate_index s = (spec_idx s, spec_streams s) := by
  obtain ⟨MCS, ldpc, BW, GI, STBC, MODE⟩ := s
  unfold getRate_index spec_idx spec_streams spec_mcs spec_vht_base
  simp only [getRate_vht_ss_eq, uchar_of_lt hgi, uchar_of_lt hmcs]
  simp only [ MODE_CCK, MODE_OFDM, MODE_HTMIX, MODE_HTGREENFIELD, MODE_VHT, BW_20, BW_40,
    BW_80] at hmode hht hvht ⊢
  rcases hmode with h | h | h | h | h
  · subst h; simp
  · subst h; simp
  · subst h
    rcases hht (Or.inl rfl) with hb | hb <;> subst hb <;> simp [uchar]
  · subst h
    rcases hht (Or.inr rfl) with hb | hb <;> subst hb <;> simp [uchar]
  · subst h
    rcases hvht rfl with hb | hb | hb <;> subst hb <;> by_cases h9 : MCS > 9 <;> simp [h9]

/-- C1: for a setting whose mode is CCK, OFDM, HT-mixed, HT-greenfield or VHT (bandwidth
20/40 MHz for HT, 20/40/80 MHz for VHT) and whose bit-fields fit a byte, `getRate` returns
`(MCSMappingRateTable[clamp(idx, 0, 165)] * streams * 5) / 10`, with `idx` and `streams`
as the specification words them; CCK with MCS 0, 1, 3 gives 1, 2, 11. -/
theorem getRate_formula (s : MACHTTRANSMIT_SETTING)
    (hmode : s.MODE = MODE_CCK ∨ s.MODE = MODE_OFDM ∨ s.MODE = MODE_HTMIX ∨
      s.MODE = MODE_HTGREENFIELD ∨ s.MODE = MODE_VHT)
    (hht : s.MODE = MODE_HTMIX ∨ s.MODE = MODE_HTGREENFIELD → s.BW = BW_20 ∨ s.BW = BW_40)
    (hvht : s.MODE = MODE_VHT → s.BW = BW_20 ∨ s.BW = BW_40 ∨ s.BW = BW_80)
    (hgi : s.ShortGI ≤ 1) (hmcs : s.MCS < 256) :
    getRate s = some (spec_rate s) ∧
      (s.MODE = MODE_CCK → s.MCS = 0 → getRate s = some 1) ∧
      (s.MODE = MODE_CCK → s.MCS = 1 → getRate s = some 2) ∧
      (s.MODE = MODE_CCK → s.MCS = 3 → getRate s = some 11) := by
  have hidx := getRate_index_eq_spec s hmode hht hvht (by omega) hmcs
  have hrate : getRate s = some (spec_rate s) := by
    rw [getRate_eq, hidx]
    simp only [getRate_clamp_eq_spec, spec_rate]
  have hcck : s.MODE = MODE_CCK → spec_rate s =
      Int.tdiv (MCSMappingRateTable.getD (spec_clamp (s.MCS : Int)).toNat 0 * 1 * 5) 10 := by
    intro hm
    simp [spec_rate, spec_idx, spec_streams, hm, MODE_CCK, MODE_OFDM, MODE_HTMIX,
      MODE_HTGREENFIELD, MODE_VHT]
  refine ⟨hrate, ?_, ?_, ?_⟩ <;> intro hm hc <;> rw [hrate, hcck hm, hc] <;> decide

/-- Witness of C1: HT-mixed, 40 MHz, short GI, MCS 15 reads entry 99 of the table. -/
theorem getRate_formula_witness :
    getRate ⟨15, 0, BW_40, 1, 0, MODE_HTMIX⟩ =
        some (spec_rate ⟨15, 0, BW_40, 1, 0, MODE_HTMIX⟩) ∧
      spec_rate ⟨15, 0, BW_40, 1, 0, MODE_HTMIX⟩ = 300 :=
  ⟨(getRate_formula ⟨15, 0, BW_40, 1, 0, MODE_HTMIX⟩ (by decide) (by decide) (by decide)
    (by decide) (by decide)).1, by decide⟩

/-- C2: for every combination of field values (any mode, any bandwidth, any GI, any MCS)
`getRate` returns a rate, and the index it reads `MCSMappingRateTable` at lies in
`[0, 165]`, where 166 is the length of the table. -/
theorem getRate_reads_inside (s : MACHTTRANSMIT_SETTING) :
    (∃ r, getRate s = some r) ∧
      getRate s = (MCSMappingRateTable_read (getRate_clamp (getRate_index s).1)).map
        (fun v => Int.tdiv (v * (getRate_index s).2 * 5) 10) ∧
      0 ≤ getRate_clamp (getRate_index s).1 ∧ getRate_clamp (getRate_index s).1 ≤ 165 ∧
      MCSMappingRateTable.length = 166 :=
  ⟨⟨_, getRate_eq s⟩, rfl, (getRate_clamp_bounds _).1, (getRate_clamp_bounds _).2, by decide⟩

/-- C3, as stated, fails: for VHT, 80 MHz, long GI, MCS 26 the index before the clamp is
not beyond the last valid index, and the rate is not the one of the last table entry. -/
theorem getRate_vht80_mcs26_not_clamped :
    ¬ ((getRate_index ⟨26, 0, BW_80, 0, 0, MODE_VHT⟩).1 > rate_count - 1 ∧
      getRate ⟨26, 0, BW_80, 0, 0, MODE_VHT⟩ =
        some (Int.tdiv (MCSMappingRateTable.getD (MCSMappingRateTable.length - 1) 0 * 2 * 5)
          10)) := by
  decide

/-- C3, amended: for VHT, 80 MHz, long GI, MCS 26 (2 streams, per-stream mcs 10) the index
before the clamp is 137, inside the table, the clamp leaves it as it is, and the rate is
computed from entry 137 (value 14) with 2 streams: 14. -/
theorem getRate_vht80_mcs26 (ldpc STBC : Nat) :
    getRate_index ⟨26, ldpc, BW_80, 0, STBC, MODE_VHT⟩ = (137, 2) ∧
      getRate_clamp 137 = 137 ∧ (137 : Int) < rate_count ∧
      MCSMappingRateTable_read 137 = some 14 ∧
      getRate ⟨26, ldpc, BW_80, 0, STBC, MODE_VHT⟩ = some 14 := by
  have h : getRate_index ⟨26, ldpc, BW_80, 0, STBC, MODE_VHT⟩ =
      getRate_index ⟨26, 0, BW_80, 0, 0, MODE_VHT⟩ := rfl
  have h : getRate_index ⟨26, ldpc, BW_80, 0, STBC, MODE_VHT⟩ = (137, 2) := by
    rw [h]; decide
  refine ⟨h, by decide, by decide, by decide, ?_⟩
  rw [getRate_eq, h]
  decide

theorem getRate_index_vht (s : MACHTTRANSMIT_SETTING) (hm : s.MODE ≥ MODE_VHT)
    (hbw : s.BW = BW_20 ∨ s.BW = BW_40 ∨ s.BW = BW_80) (hgi : s.ShortGI < 256) :
    getRate_index s =
      (spec_vht_base s.BW + (s.ShortGI : Int) * 29 + (getRate_vht_ss s.MCS).2,
        (getRate_vht_ss s.MCS).1) := by
  unfold getRate_index spec_vht_base
  simp only [if_pos hm, uchar_of_lt hgi]
  rcases hbw with hb | hb | hb <;> rw [hb] <;> simp [BW_20, BW_40, BW_80]

theorem getRate_vht_ss_packed (t mcs : Nat) (hmcs : mcs ≤ 9) :
    getRate_vht_ss (t * 16 + mcs) = (((t + 1 : Nat) : Int), (mcs : Int)) := by
  rw [getRate_vht_ss_eq]
  by_cases h : t * 16 + mcs > 9
  · rw [if_pos h]
    have h1 : (t * 16 + mcs) / 16 + 1 = t + 1 := by omega
    have h2 : (t * 16 + mcs) % 16 = mcs := by omega
    rw [h1, h2]
  · rw [if_neg h]
    have h1 : t = 0 := by omega
    subst h1
    simp

theorem tdiv10_of_nonneg {a : Int} (h : 0 ≤ a) : Int.tdiv a 10 = a / 10 :=
  Int.tdiv_eq_ediv h (by norm_num)

/-- C4, as stated, fails: VHT, 20 MHz, long GI, per-stream mcs 0 gives 6 with one stream
(MCS 0) and 13, not 12, with two streams (MCS 16). -/
theorem getRate_double_streams_fails :
    getRate ⟨(1 - 1) * 16 + 0, 0, BW_20, 0, 0, MODE_VHT⟩ = some 6 ∧
      getRate ⟨(2 * 1 - 1) * 16 + 0, 0, BW_20, 0, 0, MODE_VHT⟩ = some 13 ∧
      getRate ⟨(2 * 1 - 1) * 16 + 0, 0, BW_20, 0, 0, MODE_VHT⟩ ≠
        (getRate ⟨(1 - 1) * 16 + 0, 0, BW_20, 0, 0, MODE_VHT⟩).map (fun r => 2 * r) := by
  decide

/-- C4, amended: for a VHT setting with bandwidth 20/40/80 MHz, either GI, per-stream mcs
in 0..9 and `s ≥ 1` streams, `getRate` with MCS `(2s-1)*16 + mcs` returns 2 times what it
returns with MCS `(s-1)*16 + mcs`, plus 1 when the table entry times `s` is odd: the rate
with `2s` streams is the entry times `s`, the rate with `s` streams is half of that,
truncated. -/
theorem getRate_double_streams (BW GI mcs s ldpc STBC : Nat)
    (hbw : BW = BW_20 ∨ BW = BW_40 ∨ BW = BW_80) (hgi : GI ≤ 1) (hmcs : mcs ≤ 9)
    (hs : 1 ≤ s) :
    ∃ r1 r2 : Int,
      getRate ⟨(s - 1) * 16 + mcs, ldpc, BW, GI, STBC, MODE_VHT⟩ = some r1 ∧
      getRate ⟨(2 * s - 1) * 16 + mcs, ldpc, BW, GI, STBC, MODE_VHT⟩ = some r2 ∧
      r2 = MCSMappingRateTable.getD (spec_vht_base BW + (GI : Int) * 29 + (mcs : Int)).toNat 0
        * (s : Int) ∧
      r2 = 2 * r1 + r2 % 2 ∧
      (r2 % 2 = 0 → r2 = 2 * r1) := by
  obtain ⟨t, rfl⟩ : ∃ t, s = t + 1 := ⟨s - 1, by omega⟩
  have e1 : t + 1 - 1 = t := by omega
  have e2 : 2 * (t + 1) - 1 = (2 * t + 1) := by omega
  have hidx : (0 : Int) ≤ spec_vht_base BW + (GI : Int) * 29 + (mcs : Int) ∧
      spec_vht_base BW + (GI : Int) * 29 + (mcs : Int) ≤ 165 := by
    unfold spec_vht_base
    rcases hbw with hb | hb | hb <;> subst hb <;> simp [BW_20, BW_40, BW_80] <;> omega
  have hT := table_nonneg (spec_vht_base BW + (GI : Int) * 29 + (mcs : Int)).toNat
  generalize hTdef :
    MCSMappingRateTable.getD (spec_vht_base BW + (GI : Int) * 29 + (mcs : Int)).toNat 0 = T
    at hT
  have hx : 0 ≤ T * ((t + 1 : Nat) : Int) := Int.mul_nonneg hT (Int.ofNat_nonneg _)
  generalize hxdef : T * ((t + 1 : Nat) : Int) = x at hx
  have hr1 : getRate ⟨(t + 1 - 1) * 16 + mcs, ldpc, BW, GI, STBC, MODE_VHT⟩ =
      some (x * 5 / 10) := by
    rw [getRate_eq, getRate_index_vht _ (le_refl _) hbw (by simp only; omega), e1]
    simp only [getRate_vht_ss_packed t mcs hmcs, getRate_clamp_of_bounds hidx.1 hidx.2, hTdef,
      hxdef]
    rw [tdiv10_of_nonneg (by omega)]
  have hr2 : getRate ⟨(2 * (t + 1) - 1) * 16 + mcs, ldpc, BW, GI, STBC, MODE_VHT⟩ =
      some x := by
    rw [getRate_eq, getRate_index_vht _ (le_refl _) hbw (by simp only; omega), e2]
    simp only [getRate_vht_ss_packed (2 * t + 1) mcs hmcs,
      getRate_clamp_of_bounds hidx.1 hidx.2, hTdef]
    have hx2 : T * ((2 * t + 1 + 1 : Nat) : Int) * 5 = x * 10 := by
      rw [← hxdef]; push_cast; ring
    rw [hx2, tdiv10_of_nonneg (by omega)]
    congr 1
    omega
  exact ⟨_, _, hr1, hr2, rfl, by omega, by omega⟩

/-- Witness of C4 amended: VHT, 80 MHz, short GI, per-stream mcs 9, one stream against
two. -/
theorem getRate_double_streams_witness :
    ∃ r1 r2 : Int,
      getRate ⟨(1 - 1) * 16 + 9, 0, BW_80, 1, 0, MODE_VHT⟩ = some r1 ∧
      getRate ⟨(2 * 1 - 1) * 16 + 9, 0, BW_80, 1, 0, MODE_VHT⟩ = some r2 ∧
      r2 = MCSMappingRateTable.getD (spec_vht_base BW_80 + ((1 : Nat) : Int) * 29 +
        ((9 : Nat) : Int)).toNat 0 * ((1 : Nat) : Int) ∧
      r2 = 2 * r1 + r2 % 2 ∧
      (r2 % 2 = 0 → r2 = 2 * r1) :=
  getRate_double_streams BW_80 1 9 1 0 0 (by decide) (by decide) (by decide) (by decide)

theorem getMCS_eq_vht_ss (s : MACHTTRANSMIT_SETTING) (hm : s.MODE ≥ MODE_VHT) :
    getMCS s = (getRate_vht_ss s.MCS).2 := by
  unfold getMCS getRate_vht_ss
  simp only [if_pos hm]
  split_ifs <;> rfl

/-- C5: for `s ≥ 1` streams and per-stream mcs in 0..9, a VHT setting with MCS
`(s-1)*16 + mcs` is decoded by `getRate` with stream multiplier `s` and per-stream mcs
`mcs` (which for a supported bandwidth is what enters the table index), for `s = 1` the
MCS field is the mcs itself, and `getMCS` returns `mcs`. -/
theorem vht_stream_packing_round_trip (st : MACHTTRANSMIT_SETTING) (s mcs : Nat)
    (hmode : st.MODE = MODE_VHT) (hs : 1 ≤ s) (hmcs : mcs ≤ 9)
    (hMCS : st.MCS = (s - 1) * 16 + mcs) :
    getRate_vht_ss st.MCS = ((s : Int), (mcs : Int)) ∧
      (getRate_index st).2 = (s : Int) ∧
      (st.BW = BW_20 ∨ st.BW = BW_40 ∨ st.BW = BW_80 →
        (getRate_index st).1 = spec_vht_base st.BW + uchar st.ShortGI * 29 + (mcs : Int)) ∧
      (s = 1 → st.MCS = mcs) ∧
      getMCS st = (mcs : Int) := by
  obtain ⟨t, rfl⟩ : ∃ t, s = t + 1 := ⟨s - 1, by omega⟩
  have e1 : t + 1 - 1 = t := by omega
  rw [e1] at hMCS
  have hss := getRate_vht_ss_packed t mcs hmcs
  rw [← hMCS] at hss
  have hge : st.MODE ≥ MODE_VHT := by rw [hmode]
  refine ⟨hss, ?_, ?_, ?_, ?_⟩
  · unfold getRate_index
    simp only [if_pos hge, hss]
    split_ifs <;> rfl
  · intro hbw
    unfold getRate_index spec_vht_base
    simp only [if_pos hge, hss]
    rcases hbw with hb | hb | hb <;> rw [hb] <;> simp [BW_20, BW_40, BW_80]
  · intro h1
    have : t = 0 := by omega
    subst this
    simpa using hMCS
  · rw [getMCS_eq_vht_ss st hge, hss]

/-- Witness of C5: three streams at per-stream mcs 7 are packed as MCS 39. -/
theorem vht_stream_packing_round_trip_witness :
    getRate_vht_ss 39 = (((3 : Nat) : Int), ((7 : Nat) : Int)) ∧
      (getRate_index ⟨39, 0, BW_80, 1, 0, MODE_VHT⟩).2 = ((3 : Nat) : Int) ∧
      getMCS ⟨39, 0, BW_80, 1, 0, MODE_VHT⟩ = ((7 : Nat) : Int) :=
  have h := vht_stream_packing_round_trip ⟨39, 0, BW_80, 1, 0, MODE_VHT⟩ 3 7 (by decide)
    (by decide) (by decide) (by decide)
  ⟨h.1, h.2.1, h.2.2.2.2⟩

/-- C6, as stated, fails: for mode VHT with the bandwidth value 3, which is none of 20, 40
and 80 MHz, `getMCS` returns 7 for MCS 7 and 8 for MCS 8, while `getRate` adds no mcs into
its table index: the index is 0 for both, and so is the rate read from it. -/
theorem getMCS_not_added_for_other_bandwidth :
    getMCS ⟨7, 0, 3, 0, 0, MODE_VHT⟩ = 7 ∧ getMCS ⟨8, 0, 3, 0, 0, MODE_VHT⟩ = 8 ∧
      getRate_index ⟨7, 0, 3, 0, 0, MODE_VHT⟩ = (0, 1) ∧
      getRate_index ⟨8, 0, 3, 0, 0, MODE_VHT⟩ = (0, 1) ∧
      (getRate_index ⟨7, 0, 3, 0, 0, MODE_VHT⟩).1 ≠ getMCS ⟨7, 0, 3, 0, 0, MODE_VHT⟩ ∧
      getRate ⟨7, 0, 3, 0, 0, MODE_VHT⟩ = getRate ⟨8, 0, 3, 0, 0, MODE_VHT⟩ := by
  decide

/-- C6, amended: for every transmit setting (MCS field fitting a byte) `getMCS` returns
the raw MCS field when the mode is below VHT or MCS is at most 9, and MCS mod 16, a value
below 16, when the mode is VHT or above and MCS exceeds 9. When the mode is below VHT, or
VHT or above with bandwidth 20, 40 or 80 MHz, this is exactly the mcs that `getRate` adds
into its table index. When the mode is VHT or above with any other bandwidth value,
`getRate` adds no mcs: its index stays 0 and only the stream multiplier is decoded. -/
theorem getMCS_is_getRate_mcs (s : MACHTTRANSMIT_SETTING) (hmcs : s.MCS < 256) :
    getMCS s = (if s.MODE ≥ MODE_VHT ∧ s.MCS > 9 then ((s.MCS % 16 : Nat) : Int)
      else (s.MCS : Int)) ∧
      (s.MODE ≥ MODE_VHT → s.MCS > 9 → getMCS s < 16) ∧
      (s.MODE ≥ MODE_VHT → (getRate_vht_ss s.MCS).2 = getMCS s) ∧
      (s.MODE ≥ MODE_VHT → s.BW = BW_20 →
        (getRate_index s).1 = 108 + uchar s.ShortGI * 29 + getMCS s) ∧
      (s.MODE ≥ MODE_VHT → s.BW = BW_40 →
        (getRate_index s).1 = 117 + uchar s.ShortGI * 29 + getMCS s) ∧
      (s.MODE ≥ MODE_VHT → s.BW = BW_80 →
        (getRate_index s).1 = 127 + uchar s.ShortGI * 29 + getMCS s) ∧
      (s.MODE < MODE_VHT → s.MODE ≥ MODE_HTMIX →
        (getRate_index s).1 = 12 + uchar s.BW * 24 + uchar s.ShortGI * 48 + getMCS s) ∧
      (s.MODE = MODE_OFDM → (getRate_index s).1 = getMCS s + 4) ∧
      (s.MODE = MODE_CCK → (getRate_index s).1 = getMCS s) ∧
      (s.MODE ≥ MODE_VHT → s.BW ≠ BW_20 → s.BW ≠ BW_40 → s.BW ≠ BW_80 →
        getRate_index s = (0, (getRate_vht_ss s.MCS).1)) := by
  have hlow : s.MODE < MODE_VHT → getMCS s = (s.MCS : Int) := by
    intro h
    unfold getMCS
    simp only [ge_iff_le, if_neg (Nat.not_le.mpr h)]
  have hval : getMCS s = (if s.MODE ≥ MODE_VHT ∧ s.MCS > 9 then ((s.MCS % 16 : Nat) : Int)
      else (s.MCS : Int)) := by
    by_cases hm : s.MODE ≥ MODE_VHT
    · rw [getMCS_eq_vht_ss s hm, getRate_vht_ss_eq]
      by_cases h9 : s.MCS > 9 <;> simp [hm, h9]
    · rw [hlow (by omega)]
      simp [hm]
  refine ⟨hval, ?_, ?_, ?_, ?_, ?_, ?_, ?_, ?_, ?_⟩
  · intro hm h9
    rw [hval, if_pos ⟨hm, h9⟩]
    omega
  · intro hm
    rw [getMCS_eq_vht_ss s hm]
  · intro hm hb
    rw [getMCS_eq_vht_ss s hm]
    unfold getRate_index
    simp [hm, hb]
  · intro hm hb
    rw [getMCS_eq_vht_ss s hm]
    unfold getRate_index
    simp [hm, hb, BW_20, BW_40]
  · intro hm hb
    rw [getMCS_eq_vht_ss s hm]
    unfold getRate_index
    simp [hm, hb, BW_20, BW_40, BW_80]
  · intro hm hh
    rw [hlow hm]
    unfold getRate_index
    simp [Nat.not_le.mpr hm, hh, uchar_of_lt hmcs]
  · intro hm
    rw [hlow (by rw [hm]; decide)]
    unfold getRate_index
    simp [hm, MODE_OFDM, MODE_VHT, MODE_HTMIX, uchar_of_lt hmcs]
  · intro hm
    rw [hlow (by rw [hm]; decide)]
    unfold getRate_index
    simp [hm, MODE_OFDM, MODE_VHT, MODE_HTMIX, MODE_CCK, uchar_of_lt hmcs]
  · intro hm h20 h40 h80
    unfold getRate_index
    simp only [if_pos hm, if_neg h20, if_neg h40, if_neg h80]

/-- Witness of C6 amended: VHT, 40 MHz, long GI, MCS 25 is shown as mcs 9 and read at
117 + 9; VHT with the bandwidth value 3 and MCS 25 is shown as mcs 9 too, but the index
stays 0 with 2 streams. -/
theorem getMCS_is_getRate_mcs_witness :
    getMCS ⟨25, 0, BW_40, 0, 0, MODE_VHT⟩ = 9 ∧
      (getRate_index ⟨25, 0, BW_40, 0, 0, MODE_VHT⟩).1 =
        117 + uchar 0 * 29 + getMCS ⟨25, 0, BW_40, 0, 0, MODE_VHT⟩ ∧
      getMCS ⟨25, 0, 3, 0, 0, MODE_VHT⟩ = 9 ∧
      getRate_index ⟨25, 0, 3, 0, 0, MODE_VHT⟩ = (0, (getRate_vht_ss 25).1) ∧
      (getRate_vht_ss 25).1 = 2 :=
  ⟨by decide,
    (getMCS_is_getRate_mcs ⟨25, 0, BW_40, 0, 0, MODE_VHT⟩ (by decide)).2.2.2.2.1
      (by decide) rfl,
    by decide,
    (getMCS_is_getRate_mcs ⟨25, 0, 3, 0, 0, MODE_VHT⟩ (by decide)).2.2.2.2.2.2.2.2.2
      (by decide) (by decide) (by decide) (by decide),
    by decide⟩

/-! ## Range information: lemmas -/

theorem legacy_copy_eq_run_blocks (H : Headers) (range buffer : Mem) :
    legacy_copy H range buffer =
      run_blocks buffer (legacy_blocks H) (bzero range 0 H.sizeof_iw_range) := rfl

theorem run_blocks_frame (buffer : Mem) (bs : List Block) (range : Mem) (i : Nat)
    (h : ∀ b ∈ bs, ¬ b.covers i) : run_blocks buffer bs range i = range i := by
  induction bs generalizing range with
  | nil => rfl
  | cons b bs ih =>
    have hb : ¬ b.covers i := h b (List.mem_cons_self _ _)
    rw [run_blocks, ih _ (fun b' hb' => h b' (List.mem_cons_of_mem _ hb'))]
    unfold Block.covers at hb
    simp only [memcpy, if_neg hb]

theorem run_blocks_copied (buffer : Mem) (bs : List Block) (range : Mem)
    (hp : bs.Pairwise Block.disjoint) (b : Block) (hb : b ∈ bs) (j : Nat) (hj : j < b.len) :
    run_blocks buffer bs range (b.dst + j) = buffer (b.src + j) := by
  induction bs generalizing range with
  | nil => cases hb
  | cons b0 bs ih =>
    rw [List.pairwise_cons] at hp
    rw [run_blocks]
    rcases List.mem_cons.mp hb with rfl | hmem
    · rw [run_blocks_frame]
      · have hin : b.dst ≤ b.dst + j ∧ b.dst + j < b.dst + b.len := by omega
        simp only [memcpy, if_pos hin, Nat.add_sub_cancel_left]
      · intro b' hb' hcov
        have hd := hp.1 b' hb'
        unfold Block.disjoint at hd
        unfold Block.covers at hcov
        omega
    · exact ih _ hp.2 hmem

theorem legacy_copy_member (H : Headers) (hc : H.Compatible) (range buffer : Mem)
    (m : Member) (hm : m ∈ iw15_range) (o : Nat) (ho : o < m.2.2 * m.2.1.size) :
    legacy_copy H range buffer (H.iwr_off m.1 + o) = buffer (iwr15_off m.1 + o) := by
  obtain ⟨b, hb, h1, h2, h3⟩ := hc.1 m hm
  have hj : iwr15_off m.1 - b.src + o < b.len := by omega
  have := run_blocks_copied buffer (legacy_blocks H) (bzero range 0 H.sizeof_iw_range) hc.2
    b hb (iwr15_off m.1 - b.src + o) hj
  rw [legacy_copy_eq_run_blocks, h3]
  have e1 : b.dst + (iwr15_off m.1 - b.src) + o = b.dst + (iwr15_off m.1 - b.src + o) := by
    omega
  have e2 : b.src + (iwr15_off m.1 - b.src + o) = iwr15_off m.1 + o := by omega
  rw [e1, this, e2]

theorem guess_version_of_ge (H : Headers) (buffer : Mem) (length : Int)
    (h : 300 ≤ length) : guess_version H buffer length = buffer := by
  unfold guess_version
  rw [if_neg (by omega)]

theorem guess_version_of_lt (H : Headers) (buffer : Mem) (length : Int)
    (h : length < 300) :
    guess_version H buffer length = storeByte buffer (H.iwr_off .we_version_compiled) 9 := by
  unfold guess_version
  rw [if_pos h]

theorem range_of_legacy (H : Headers) (st : RangeState) (length : Int)
    (h : guess_version H st.buffer length (H.iwr_off .we_version_compiled) ≤ 15) :
    (ralink_get_range_info H st length).2.range =
      legacy_copy H st.range (guess_version H st.buffer length) := by
  unfold ralink_get_range_info
  simp only [gt_iff_lt, if_neg (Nat.not_lt.mpr h)]

theorem range_of_native (H : Headers) (st : RangeState) (length : Int)
    (h : guess_version H st.buffer length (H.iwr_off .we_version_compiled) > 15) :
    (ralink_get_range_info H st length).2.range =
      memcpy st.range 0 (guess_version H st.buffer length) 0 H.sizeof_iw_range := by
  unfold ralink_get_range_info
  simp only [if_pos h]

theorem headers_we22_compatible : headers_we22.Compatible := by decide

/-! ## Range information: the legacy and the native path -/

theorem memcpy_inside (dest : Mem) (d : Nat) (src : Mem) (s n i : Nat)
    (h : d ≤ i ∧ i < d + n) : memcpy dest d src s n i = src (s + (i - d)) := if_pos h

theorem memcpy_outside (dest : Mem) (d : Nat) (src : Mem) (s n i : Nat)
    (h : ¬ (d ≤ i ∧ i < d + n)) : memcpy dest d src s n i = dest i := if_neg h

/-- C7: on the legacy path with a reported length of at least 300 and a compiled version
of at most 15 (in particular in 11..15), for headers whose `struct iw_range` is compatible
with the block copies, every
byte of every member of `struct iw15_range` (every element of the arrays included) is
found in the produced record at the offset the member has in `struct iw_range`; the
buffer itself is left as it was. -/
theorem legacy_round_trip (H : Headers) (hc : H.Compatible) (st : RangeState)
    (length : Int) (hlen : 300 ≤ length)
    (hhi : st.buffer (H.iwr_off .we_version_compiled) ≤ 15)
    (f : iw_field) (t : CType) (n : Nat) (hm : (f, t, n) ∈ iw15_range)
    (e : Nat) (he : e < n) (k : Nat) (hk : k < t.size) :
    (ralink_get_range_info H st length).2.range (H.iwr_off f + e * t.size + k) =
        st.buffer (iwr15_off f + e * t.size + k) ∧
      (ralink_get_range_info H st length).2.buffer = st.buffer := by
  have hg := guess_version_of_ge H st.buffer length hlen
  have hb : (ralink_get_range_info H st length).2.buffer = st.buffer := hg
  refine ⟨?_, hb⟩
  rw [range_of_legacy H st length (by rw [hg]; exact hhi), hg]
  have ho : e * t.size + k < n * t.size := by
    have h1 : (e + 1) * t.size ≤ n * t.size := Nat.mul_le_mul_right _ he
    have h2 : (e + 1) * t.size = e * t.size + t.size := by ring
    omega
  have := legacy_copy_member H hc st.range st.buffer (f, t, n) hm (e * t.size + k) ho
  simpa only [Nat.add_assoc] using this

/-- Witness of C7: with the Wireless Extensions 22 headers and compiled version 12, the
last byte of `bitrate[7]` and the compiled version itself are carried over. -/
theorem legacy_round_trip_witness :
    headers_we22.Compatible ∧
      (ralink_get_range_info headers_we22 (demoState 12) 300).2.range
          (headers_we22.iwr_off .bitrate + 7 * CType.s32.size + 3) =
        (demoState 12).buffer (iwr15_off .bitrate + 7 * CType.s32.size + 3) ∧
      (ralink_get_range_info headers_we22 (demoState 12) 300).2.range
          (headers_we22.iwr_off .we_version_compiled + 0 * CType.u8.size + 0) =
        (demoState 12).buffer (iwr15_off .we_version_compiled + 0 * CType.u8.size + 0) :=
  ⟨headers_we22_compatible,
    (legacy_round_trip headers_we22 headers_we22_compatible (demoState 12) 300 (by decide)
      (by decide) .bitrate .s32 8 (by decide) 7 (by decide) 3 (by decide)).1,
    (legacy_round_trip headers_we22 headers_we22_compatible (demoState 12) 300 (by decide)
      (by decide) .we_version_compiled .u8 1 (by decide) 0 (by decide) 0
      (by decide)).1⟩

/-- C8: with a reported length of at least 300 and a compiled version above 15, every byte
of the record below `sizeof(struct iw_range)` equals the buffer byte at the same offset,
memory past the record keeps what it held, and another such buffer that agrees below
`sizeof(struct iw_range)` gives the same record: the bytes beyond have no influence. -/
theorem native_copy_verbatim (H : Headers) (st : RangeState) (length : Int)
    (hlen : 300 ≤ length) (hv : st.buffer (H.iwr_off .we_version_compiled) > 15) :
    (∀ i, i < H.sizeof_iw_range →
        (ralink_get_range_info H st length).2.range i = st.buffer i) ∧
      (∀ i, H.sizeof_iw_range ≤ i →
        (ralink_get_range_info H st length).2.range i = st.range i) ∧
      (∀ buffer2 : Mem, buffer2 (H.iwr_off .we_version_compiled) > 15 →
        (∀ i, i < H.sizeof_iw_range → buffer2 i = st.buffer i) →
        (ralink_get_range_info H { st with buffer := buffer2 } length).2.range =
          (ralink_get_range_info H st length).2.range) := by
  have hg := guess_version_of_ge H st.buffer length hlen
  have hr := range_of_native H st length (by rw [hg]; exact hv)
  rw [hg] at hr
  refine ⟨?_, ?_, ?_⟩
  · intro i hi
    rw [hr, memcpy_inside _ _ _ _ _ _ (by omega), Nat.sub_zero, Nat.zero_add]
  · intro i hi
    rw [hr, memcpy_outside _ _ _ _ _ _ (by omega)]
  · intro buffer2 hv2 hagree
    have hg2 := guess_version_of_ge H buffer2 length hlen
    have hr2 := range_of_native H { st with buffer := buffer2 } length
      (by show guess_version H buffer2 length _ > 15; rw [hg2]; exact hv2)
    rw [hr, hr2]
    show memcpy st.range 0 (guess_version H buffer2 length) 0 H.sizeof_iw_range = _
    rw [hg2]
    funext i
    by_cases hin : 0 ≤ i ∧ i < 0 + H.sizeof_iw_range
    · rw [memcpy_inside _ _ _ _ _ _ hin, memcpy_inside _ _ _ _ _ _ hin, Nat.sub_zero,
        Nat.zero_add]
      exact hagree i (by omega)
    · rw [memcpy_outside _ _ _ _ _ _ hin, memcpy_outside _ _ _ _ _ _ hin]

/-- Witness of C8: with the Wireless Extensions 22 headers and compiled version 22, byte
587 of the record is byte 587 of the buffer and byte 588 is untouched. -/
theorem native_copy_verbatim_witness :
    (ralink_get_range_info headers_we22 (demoState 22) 300).2.range 587 =
        (demoState 22).buffer 587 ∧
      (ralink_get_range_info headers_we22 (demoState 22) 300).2.range 588 =
        (demoState 22).range 588 :=
  have h := native_copy_verbatim headers_we22 (demoState 22) 300 (by decide) (by decide)
  ⟨h.1 587 (by decide), h.2.1 588 (by decide)⟩

/-- C9: with a reported length below 300, whatever the buffer holds, the record is
produced by the legacy path from the buffer with compiled version 9, and, for headers
whose `struct iw_range` is compatible with the block copies and has `we_version_compiled`
at its WE-15 offset, the compiled version of the record is exactly 9. -/
theorem short_length_forces_version_9 (H : Headers) (hc : H.Compatible)
    (hsame : H.iwr_off .we_version_compiled = iwr15_off .we_version_compiled)
    (st : RangeState) (length : Int) (hlen : length < 300) :
    (ralink_get_range_info H st length).2.range =
        legacy_copy H st.range (storeByte st.buffer (H.iwr_off .we_version_compiled) 9) ∧
      (ralink_get_range_info H st length).2.range (H.iwr_off .we_version_compiled) = 9 := by
  have hg := guess_version_of_lt H st.buffer length hlen
  have hbyte : guess_version H st.buffer length (H.iwr_off .we_version_compiled) = 9 := by
    rw [hg]
    simp only [storeByte, if_true]
  have hr := range_of_legacy H st length (by rw [hbyte]; decide)
  refine ⟨by rw [hr, hg], ?_⟩
  rw [hr]
  have := legacy_copy_member H hc st.range (guess_version H st.buffer length)
    (.we_version_compiled, .u8, 1) (by decide) 0 (by decide)
  simp only [Nat.add_zero] at this
  rw [this, ← hsame, hbyte]

/-- Witness of C9: a buffer of reported length 299 that claims compiled version 22. -/
theorem short_length_forces_version_9_witness :
    (demoState 22).buffer (headers_we22.iwr_off .we_version_compiled) = 22 ∧
      (ralink_get_range_info headers_we22 (demoState 22) 299).2.range
        (headers_we22.iwr_off .we_version_compiled) = 9 :=
  ⟨by decide,
    (short_length_forces_version_9 headers_we22 headers_we22_compatible (by decide)
      (demoState 22) 299 (by decide)).2⟩

theorem legacy_copy_last_block (H : Headers) (range buffer : Mem) (j : Nat)
    (hj : j < CType.iw_quality.size) :
    legacy_copy H range buffer (H.iwr_off .avg_qual + j) =
      buffer (iwr15_off .avg_qual + j) := by
  unfold legacy_copy
  rw [memcpy_inside _ _ _ _ _ _ (by omega), Nat.add_sub_cancel_left]

/-- C11, as stated, fails: with reported length 0 the call returns 0, not a failure, and
the record depends on the bytes of the buffer, so they are read. -/
theorem empty_buffer_not_rejected :
    ¬ (ralink_get_range_info headers_we22 (demoState 12) 0).1 < 0 ∧
      (ralink_get_range_info headers_we22 (demoState 12) 0).2.range 0 ≠
        (ralink_get_range_info headers_we22
          { demoState 12 with buffer := fun _ => 0 } 0).2.range 0 := by
  decide

/-- C11, amended: with a reported length of 0 or less the call returns 0, stores 9 as the
compiled version in the buffer and fills the record by the legacy path from that buffer;
the bytes of `avg_qual`, copied last, are those of the buffer. -/
theorem nonpositive_length_is_guessed (H : Headers) (st : RangeState) (length : Int)
    (hlen : length ≤ 0) :
    (ralink_get_range_info H st length).1 = 0 ∧
      (ralink_get_range_info H st length).2.buffer =
        storeByte st.buffer (H.iwr_off .we_version_compiled) 9 ∧
      (ralink_get_range_info H st length).2.range =
        legacy_copy H st.range (storeByte st.buffer (H.iwr_off .we_version_compiled) 9) ∧
      ∀ j, j < CType.iw_quality.size →
        (ralink_get_range_info H st length).2.range (H.iwr_off .avg_qual + j) =
          storeByte st.buffer (H.iwr_off .we_version_compiled) 9
            (iwr15_off .avg_qual + j) := by
  have hg := guess_version_of_lt H st.buffer length (by omega)
  have hbyte : guess_version H st.buffer length (H.iwr_off .we_version_compiled) = 9 := by
    rw [hg]
    simp only [storeByte, if_true]
  have hr := range_of_legacy H st length (by rw [hbyte]; decide)
  rw [hg] at hr
  refine ⟨rfl, hg, hr, ?_⟩
  intro j hj
  rw [hr, legacy_copy_last_block H _ _ j hj]

/-- Witness of C11 amended: reported length 0 with the Wireless Extensions 22 headers. -/
theorem nonpositive_length_is_guessed_witness :
    (ralink_get_range_info headers_we22 (demoState 12) 0).1 = 0 ∧
      (ralink_get_range_info headers_we22 (demoState 12) 0).2.range
          (headers_we22.iwr_off .avg_qual + 3) =
        storeByte (demoState 12).buffer (headers_we22.iwr_off .we_version_compiled) 9
          (iwr15_off .avg_qual + 3) :=
  have h := nonpositive_length_is_guessed headers_we22 (demoState 12) 0 (by decide)
  ⟨h.1, h.2.2.2 3 (by decide)⟩

/-- C12, as stated, fails: with reported length 1, too short for the compiled-version
field at offset 280, the call returns 0, not a failure, and the record is populated, even
from byte 300 of the buffer. -/
theorem short_buffer_not_rejected :
    (1 : Int) ≤ (iwr15_off .we_version_compiled : Int) ∧
      ¬ (ralink_get_range_info headers_we22 (demoState 12) 1).1 < 0 ∧
      (ralink_get_range_info headers_we22 (demoState 12) 1).2.range
        (headers_we22.iwr_off .max_r_time) = (demoState 12).buffer 300 ∧
      (demoState 12).buffer 300 = 50 := by
  decide

/-- C12, amended: for a reported length too short to contain the compiled-version field
(at most its offset, 280), positive or not, the call reports no error: it returns 0 and,
for headers whose `struct iw_range` is compatible with the block copies, produces a fully
populated record, every member of `struct iw15_range` taken from the buffer in which the
compiled version has been set to 9. -/
theorem short_buffer_is_guessed (H : Headers) (hc : H.Compatible) (st : RangeState)
    (length : Int) (hshort : length ≤ (iwr15_off .we_version_compiled : Int))
    (m : Member) (hm : m ∈ iw15_range) (o : Nat) (ho : o < m.2.2 * m.2.1.size) :
    (ralink_get_range_info H st length).1 = 0 ∧
      (ralink_get_range_info H st length).2.range (H.iwr_off m.1 + o) =
        storeByte st.buffer (H.iwr_off .we_version_compiled) 9 (iwr15_off m.1 + o) := by
  have h280 : iwr15_off .we_version_compiled = 280 := by decide
  have hg := guess_version_of_lt H st.buffer length (by rw [h280] at hshort; omega)
  have hbyte : guess_version H st.buffer length (H.iwr_off .we_version_compiled) = 9 := by
    rw [hg]
    simp only [storeByte, if_true]
  have hr := range_of_legacy H st length (by rw [hbyte]; decide)
  rw [hg] at hr
  refine ⟨rfl, ?_⟩
  rw [hr]
  exact legacy_copy_member H hc _ _ m hm o ho

/-- Witness of C12 amended: reported length 280 with the Wireless Extensions 22 headers,
last byte of `txpower[7]`. -/
theorem short_buffer_is_guessed_witness :
    (ralink_get_range_info headers_we22 (demoState 12) 280).1 = 0 ∧
      (ralink_get_range_info headers_we22 (demoState 12) 280).2.range
          (headers_we22.iwr_off .txpower + 31) =
        storeByte (demoState 12).buffer (headers_we22.iwr_off .we_version_compiled) 9
          (iwr15_off .txpower + 31) :=
  short_buffer_is_guessed headers_we22 headers_we22_compatible (demoState 12) 280
    (by decide) (.txpower, .s32, IW15_MAX_TXPOWER) (by decide) 31 (by decide)

/-- C13, as stated, fails: a WE-15 buffer with `num_bitrates` 153, above the capacity 8,
is decoded without error into a record that carries 153 as `num_bitrates`. -/
theorem list_overflow_not_rejected :
    (demoState 12).buffer (iwr15_off .num_bitrates) > IW15_MAX_BITRATES ∧
      ¬ (ralink_get_range_info headers_we22 (demoState 12) 300).1 < 0 ∧
      (ralink_get_range_info headers_we22 (demoState 12) 300).2.range
        (headers_we22.iwr_off .num_bitrates) = 153 := by
  decide

/-- C13, amended: for a WE-15 buffer (reported length at least 300, compiled version at
most 15) and headers whose `struct iw_range` is compatible with the block copies, the call
returns 0 and the record carries the four list counts of the buffer as they are, also
when a count exceeds its capacity. -/
theorem list_counts_copied_unchecked (H : Headers) (hc : H.Compatible) (st : RangeState)
    (length : Int) (hlen : 300 ≤ length)
    (hleg : st.buffer (H.iwr_off .we_version_compiled) ≤ 15) :
    (ralink_get_range_info H st length).1 = 0 ∧
      (ralink_get_range_info H st length).2.range (H.iwr_off .num_frequency) =
        st.buffer (iwr15_off .num_frequency) ∧
      (ralink_get_range_info H st length).2.range (H.iwr_off .num_bitrates) =
        st.buffer (iwr15_off .num_bitrates) ∧
      (ralink_get_range_info H st length).2.range (H.iwr_off .num_txpower) =
        st.buffer (iwr15_off .num_txpower) ∧
      (ralink_get_range_info H st length).2.range (H.iwr_off .num_encoding_sizes) =
        st.buffer (iwr15_off .num_encoding_sizes) ∧
      (st.buffer (iwr15_off .num_frequency) > IW15_MAX_FREQUENCIES →
        (ralink_get_range_info H st length).2.range (H.iwr_off .num_frequency) >
          IW15_MAX_FREQUENCIES) := by
  have hg := guess_version_of_ge H st.buffer length hlen
  have hr := range_of_legacy H st length (by rw [hg]; exact hleg)
  rw [hg] at hr
  have h1 := legacy_copy_member H hc st.range st.buffer (.num_frequency, .u8, 1)
    (by decide) 0 (by decide)
  have h2 := legacy_copy_member H hc st.range st.buffer (.num_bitrates, .u8, 1)
    (by decide) 0 (by decide)
  have h3 := legacy_copy_member H hc st.range st.buffer (.num_txpower, .u8, 1)
    (by decide) 0 (by decide)
  have h4 := legacy_copy_member H hc st.range st.buffer (.num_encoding_sizes, .u8, 1)
    (by decide) 0 (by decide)
  simp only [Nat.add_zero] at h1 h2 h3 h4
  rw [hr]
  exact ⟨rfl, h1, h2, h3, h4, fun h => by rw [h1]; exact h⟩

/-- Witness of C13 amended: the Wireless Extensions 22 headers and a buffer whose
`num_txpower` is 247. -/
theorem list_counts_copied_unchecked_witness :
    (demoState 12).buffer (iwr15_off .num_txpower) = 247 ∧
      (ralink_get_range_info headers_we22 (demoState 12) 300).2.range
        (headers_we22.iwr_off .num_txpower) = (demoState 12).buffer (iwr15_off .num_txpower) :=
  ⟨by decide,
    (list_counts_copied_unchecked headers_we22 headers_we22_compatible (demoState 12) 300
      (by decide) (by decide)).2.2.2.1⟩

/-! ## Range information: the version check -/

theorem stderr_of_not_warned (H : Headers) (st : RangeState) (length : Int)
    (h0 : st.iw_ignore_version_sp = 0) :
    (ralink_get_range_info H st length).2.stderr =
      st.stderr ++ version_warnings H (ralink_get_range_info H st length).2.range := by
  unfold ralink_get_range_info
  simp only [if_pos h0]

theorem stderr_of_warned (H : Headers) (st : RangeState) (length : Int)
    (h1 : st.iw_ignore_version_sp ≠ 0) :
    (ralink_get_range_info H st length).2.stderr = st.stderr := by
  unfold ralink_get_range_info
  simp only [if_neg h1]

/-- C14: after a first call from the not-yet-warned state (`iw_ignore_version_sp = 0`),
which prints the warnings of its record, the flag is 1 whether or not a warning was
printed, and a second call with that flag, on any record and buffer, prints nothing and
leaves the flag at 1. -/
theorem version_check_warns_once (H : Headers) (st1 : RangeState) (length1 : Int)
    (range2 buffer2 : Mem) (length2 : Int) (h0 : st1.iw_ignore_version_sp = 0) :
    (ralink_get_range_info H st1 length1).2.stderr =
        st1.stderr ++ version_warnings H (ralink_get_range_info H st1 length1).2.range ∧
      (ralink_get_range_info H st1 length1).2.iw_ignore_version_sp = 1 ∧
      (ralink_get_range_info H
        { range := range2, buffer := buffer2,
          iw_ignore_version_sp :=
            (ralink_get_range_info H st1 length1).2.iw_ignore_version_sp,
          stderr := (ralink_get_range_info H st1 length1).2.stderr } length2).2.stderr =
        (ralink_get_range_info H st1 length1).2.stderr ∧
      (ralink_get_range_info H
        { range := range2, buffer := buffer2,
          iw_ignore_version_sp :=
            (ralink_get_range_info H st1 length1).2.iw_ignore_version_sp,
          stderr := (ralink_get_range_info H st1 length1).2.stderr }
        length2).2.iw_ignore_version_sp = 1 := by
  refine ⟨stderr_of_not_warned H st1 length1 h0, rfl, ?_, rfl⟩
  exact stderr_of_warned H _ length2 (by show (1 : Int) ≠ 0; decide)

/-- Witness of C14: a first call on a version 9 buffer prints the warning for ancient
drivers; a second call on a version 30 buffer, which alone would print two warnings,
prints nothing more. -/
theorem version_check_warns_once_witness :
    (ralink_get_range_info headers_we22 (demoState 9) 300).2.stderr = [Warning.ancient] ∧
      (ralink_get_range_info headers_we22 (demoState 30) 300).2.stderr =
        [Warning.future 30 21, Warning.recommend 31 30] ∧
      (ralink_get_range_info headers_we22
        { range := (demoState 30).range, buffer := (demoState 30).buffer,
          iw_ignore_version_sp :=
            (ralink_get_range_info headers_we22 (demoState 9) 300).2.iw_ignore_version_sp,
          stderr := (ralink_get_range_info headers_we22 (demoState 9) 300).2.stderr }
        300).2.stderr =
        (ralink_get_range_info headers_we22 (demoState 9) 300).2.stderr :=
  ⟨by decide, by decide,
    (version_check_warns_once headers_we22 (demoState 9) 300 (demoState 30).range
      (demoState 30).buffer 300 rfl).2.2.1⟩

/-- C15: from the not-yet-warned state the call prints, after what was printed before,
the warning for ancient drivers exactly when the compiled version of the record is at most
10, the warning for future versions exactly when it exceeds `WE_MAX_VERSION`, and the
warning for a newer source exactly when it is above 10 and below the source version of the
record; nothing else is printed, and the warnings come in that order. -/
theorem version_check_rules (H : Headers) (st : RangeState) (length : Int)
    (h0 : st.iw_ignore_version_sp = 0) :
    ∃ ws : List Warning,
      (ralink_get_range_info H st length).2.stderr = st.stderr ++ ws ∧
      (Warning.ancient ∈ ws ↔
        (ralink_get_range_info H st length).2.range (H.iwr_off .we_version_compiled) ≤ 10) ∧
      ((∃ a b, Warning.future a b ∈ ws) ↔
        ((ralink_get_range_info H st length).2.range (H.iwr_off .we_version_compiled) : Int)
          > H.WE_MAX_VERSION) ∧
      ((∃ a b, Warning.recommend a b ∈ ws) ↔
        10 < (ralink_get_range_info H st length).2.range (H.iwr_off .we_version_compiled) ∧
          (ralink_get_range_info H st length).2.range (H.iwr_off .we_version_compiled) <
            (ralink_get_range_info H st length).2.range (H.iwr_off .we_version_source)) ∧
      List.Sublist ws
        [Warning.ancient,
          Warning.future
            ((ralink_get_range_info H st length).2.range (H.iwr_off .we_version_compiled))
            H.WE_VERSION,
          Warning.recommend
            ((ralink_get_range_info H st length).2.range (H.iwr_off .we_version_source))
            ((ralink_get_range_info H st length).2.range
              (H.iwr_off .we_version_compiled))] := by
  refine ⟨version_warnings H (ralink_get_range_info H st length).2.range,
    stderr_of_not_warned H st length h0, ?_⟩
  generalize (ralink_get_range_info H st length).2.range = range
  unfold version_warnings
  by_cases h1 : range (H.iwr_off .we_version_compiled) ≤ 10 <;>
    by_cases h2 : (range (H.iwr_off .we_version_compiled) : Int) > H.WE_MAX_VERSION <;>
    by_cases h3 : range (H.iwr_off .we_version_compiled) > 10 ∧
      range (H.iwr_off .we_version_compiled) < range (H.iwr_off .we_version_source) <;>
    simp [h1, h2, h3]

/-- Witness of C15: a version 30 buffer whose source version is 31, under headers with
maximum version 22. -/
theorem version_check_rules_witness :
    ∃ ws : List Warning,
      (ralink_get_range_info headers_we22 (demoState 30) 300).2.stderr =
        (demoState 30).stderr ++ ws ∧
      (Warning.ancient ∈ ws ↔
        (ralink_get_range_info headers_we22 (demoState 30) 300).2.range
          (headers_we22.iwr_off .we_version_compiled) ≤ 10) :=
  have ⟨ws, h1, h2, _⟩ := version_check_rules headers_we22 (demoState 30) 300 rfl
  ⟨ws, h1, h2⟩

/-- C16, as stated, fails: with reported length 299 the compiled-version byte of the
buffer, 22 before the call, is 9 after it. -/
theorem buffer_modified_by_guess :
    (demoState 22).buffer 280 = 22 ∧
      (ralink_get_range_info headers_we22 (demoState 22) 299).2.buffer 280 = 9 ∧
      (ralink_get_range_info headers_we22 (demoState 22) 299).2.buffer ≠
        (demoState 22).buffer := by
  refine ⟨by decide, by decide, fun h => ?_⟩
  have h280 := congrFun h 280
  revert h280
  decide

/-- C16, amended: for a reported length of at least 300 the buffer after the call is the
buffer before the call; for a reported length below 300 the call overwrites one byte of
it, the compiled version at its `struct iw_range` offset, with 9, and leaves every other
byte as it was. -/
theorem buffer_after_call (H : Headers) (st : RangeState) (length : Int) :
    (300 ≤ length → (ralink_get_range_info H st length).2.buffer = st.buffer) ∧
      (length < 300 →
        (ralink_get_range_info H st length).2.buffer (H.iwr_off .we_version_compiled) = 9 ∧
        ∀ i, i ≠ H.iwr_off .we_version_compiled →
          (ralink_get_range_info H st length).2.buffer i = st.buffer i) := by
  have hb : (ralink_get_range_info H st length).2.buffer =
      guess_version H st.buffer length := rfl
  rw [hb]
  refine ⟨fun h => guess_version_of_ge H st.buffer length h, fun h => ?_⟩
  rw [guess_version_of_lt H st.buffer length h]
  refine ⟨by simp only [storeByte, if_true], fun i hi => ?_⟩
  simp only [storeByte, if_neg hi]

/-- Witness of C16 amended: reported lengths 300 and 299 on a version 22 buffer. -/
theorem buffer_after_call_witness :
    (ralink_get_range_info headers_we22 (demoState 22) 300).2.buffer =
        (demoState 22).buffer ∧
      (ralink_get_range_info headers_we22 (demoState 22) 299).2.buffer
        (headers_we22.iwr_off .we_version_compiled) = 9 ∧
      (ralink_get_range_info headers_we22 (demoState 22) 299).2.buffer 281 =
        (demoState 22).buffer 281 :=
  ⟨(buffer_after_call headers_we22 (demoState 22) 300).1 (by decide),
    ((buffer_after_call headers_we22 (demoState 22) 299).2 (by decide)).1,
    ((buffer_after_call headers_we22 (demoState 22) 299).2 (by decide)).2 281 (by decide)⟩

/-- C17, the code at the failing input: under the headers of wireless tools 29 (recommended
version 21, maximum version 22) a record compiled with version 23 exceeds the threshold
22 of the rule, and the warning for future versions reports 21, the value of `WE_VERSION`,
as the version supported up to. -/
theorem future_warning_reports_other_constant :
    (ralink_get_range_info headers_we22 (demoState 23) 300).2.stderr =
        [Warning.future 23 21, Warning.recommend 31 23] ∧
      headers_we22.WE_MAX_VERSION = 22 ∧ headers_we22.WE_VERSION = 21 ∧
      ((23 : Nat) : Int) > headers_we22.WE_MAX_VERSION ∧
      Warning.future 23 headers_we22.WE_MAX_VERSION ∉
        (ralink_get_range_info headers_we22 (demoState 23) 300).2.stderr := by
  decide

/-! ## Rate resolver: the VHT sub-tables and the guard interval -/

/-- C18, as stated, fails: for VHT, 20 MHz, long GI, per-stream mcs 9 the index is 117,
past the 9 entries of the 20 MHz long-GI sub-table (108..116): it is the first entry of
the 40 MHz long-GI sub-table. -/
theorem vht20_mcs9_leaves_subtable :
    (getRate_index ⟨9, 0, BW_20, 0, 0, MODE_VHT⟩).1 = 117 ∧
      ¬ (getRate_index ⟨9, 0, BW_20, 0, 0, MODE_VHT⟩).1 <
        ((vht_subtable_start BW_20 0 + vht_subtable_len BW_20 : Nat) : Int) ∧
      (117 : Int) = ((vht_subtable_start BW_40 0 : Nat) : Int) := by
  decide

/-- C18, amended: for a VHT setting with bandwidth 20 MHz and per-stream mcs in 0..8, or
bandwidth 40 or 80 MHz and per-stream mcs in 0..9, either GI and any stream count, the
table index computed by `getRate` is the start of the sub-table of that bandwidth and GI
plus mcs, inside that sub-table (the clamp leaves it as it is), and the entry read is
entry mcs of the row that the table gives to that bandwidth and GI. -/
theorem getRate_index_in_vht_subtable (st : MACHTTRANSMIT_SETTING) (s mcs : Nat)
    (hmode : st.MODE = MODE_VHT)
    (hbw : st.BW = BW_20 ∨ st.BW = BW_40 ∨ st.BW = BW_80) (hgi : st.ShortGI ≤ 1)
    (hs : 1 ≤ s) (hmcs : mcs < vht_subtable_len st.BW)
    (hMCS : st.MCS = (s - 1) * 16 + mcs) :
    (getRate_index st).1 = ((vht_subtable_start st.BW st.ShortGI + mcs : Nat) : Int) ∧
      getRate_clamp (getRate_index st).1 = (getRate_index st).1 ∧
      vht_subtable_start st.BW st.ShortGI + vht_subtable_len st.BW ≤
        MCSMappingRateTable.length ∧
      (MCSMappingRateTable.drop (vht_subtable_start st.BW st.ShortGI)).take
        (vht_subtable_len st.BW) = vht_subtable_row st.BW st.ShortGI ∧
      MCSMappingRateTable_read (getRate_index st).1 =
        (vht_subtable_row st.BW st.ShortGI)[mcs]? := by
  obtain ⟨t, rfl⟩ : ∃ t, s = t + 1 := ⟨s - 1, by omega⟩
  have e1 : t + 1 - 1 = t := by omega
  rw [e1] at hMCS
  have hge : st.MODE ≥ MODE_VHT := by rw [hmode]
  have hlen9 : mcs ≤ 9 := by
    unfold vht_subtable_len at hmcs
    split_ifs at hmcs <;> omega
  have hidx : (getRate_index st).1 =
      spec_vht_base st.BW + (st.ShortGI : Int) * 29 + (mcs : Int) := by
    rw [getRate_index_vht st hge hbw (by omega), hMCS, getRate_vht_ss_packed t mcs hlen9]
  rw [hidx]
  have hgi2 : st.ShortGI = 0 ∨ st.ShortGI = 1 := by omega
  rcases hbw with hb | hb | hb <;> rcases hgi2 with hg | hg <;> rw [hb] at hmcs <;>
    rw [hb, hg] <;>
    simp only [vht_subtable_len, BW_20, BW_40, BW_80] at hmcs <;>
    norm_num at hmcs <;>
    interval_cases mcs <;> decide

/-- Witness of C18 amended: VHT, 20 MHz, short GI, two streams at per-stream mcs 8 read
entry 145, the last of the 20 MHz short-GI row. -/
theorem getRate_index_in_vht_subtable_witness :
    (getRate_index ⟨24, 0, BW_20, 1, 0, MODE_VHT⟩).1 =
        ((vht_subtable_start BW_20 1 + 8 : Nat) : Int) ∧
      MCSMappingRateTable_read (getRate_index ⟨24, 0, BW_20, 1, 0, MODE_VHT⟩).1 =
        (vht_subtable_row BW_20 1)[8]? ∧
      (vht_subtable_row BW_20 1)[8]? = some 173 :=
  have h := getRate_index_in_vht_subtable ⟨24, 0, BW_20, 1, 0, MODE_VHT⟩ 2 8 (by decide)
    (by decide) (by decide) (by decide) (by decide) (by decide)
  ⟨h.1, h.2.2.2.2, by decide⟩

/-! ## Range information: the block copies as a relocation -/

theorem legacy_blocks_eq (H : Headers) :
    legacy_blocks H =
      [⟨0, 0, 12⟩, ⟨H.iwr_off .num_channels, 12, 132⟩, ⟨H.iwr_off .sensitivity, 144, 8⟩,
        ⟨H.iwr_off .num_bitrates, 152, 36⟩, ⟨H.iwr_off .min_rts, 188, 56⟩,
        ⟨H.iwr_off .txpower_capa, 244, 4⟩, ⟨H.iwr_off .txpower, 248, 56⟩,
        ⟨H.iwr_off .avg_qual, 304, 4⟩] := by
  have h1 : iwr15_off .num_channels = 12 := by decide
  have h2 : iwr15_off .sensitivity = 144 := by decide
  have h3 : iwr15_off .num_bitrates = 152 := by decide
  have h4 : iwr15_off .min_rts = 188 := by decide
  have h5 : iwr15_off .txpower_capa = 244 := by decide
  have h6 : iwr15_off .txpower = 248 := by decide
  have h7 : iwr15_off .avg_qual = 304 := by decide
  have h8 : CType.iw_quality.size = 4 := rfl
  unfold legacy_blocks
  rw [h1, h2, h3, h4, h5, h6, h7, h8]

theorem legacy_source_exists (H : Headers) (i : Nat) (hi : i < 308) :
    ∃ b ∈ legacy_blocks H, b.src ≤ i ∧ i < b.src + b.len := by
  rw [legacy_blocks_eq]
  have hcases : i < 12 ∨ (12 ≤ i ∧ i < 144) ∨ (144 ≤ i ∧ i < 152) ∨ (152 ≤ i ∧ i < 188) ∨
      (188 ≤ i ∧ i < 244) ∨ (244 ≤ i ∧ i < 248) ∨ (248 ≤ i ∧ i < 304) ∨ 304 ≤ i := by
    omega
  rcases hcases with h | h | h | h | h | h | h | h
  · exact ⟨⟨0, 0, 12⟩, by simp, by simp only; omega⟩
  · exact ⟨⟨H.iwr_off .num_channels, 12, 132⟩, by simp, by simp only; omega⟩
  · exact ⟨⟨H.iwr_off .sensitivity, 144, 8⟩, by simp, by simp only; omega⟩
  · exact ⟨⟨H.iwr_off .num_bitrates, 152, 36⟩, by simp, by simp only; omega⟩
  · exact ⟨⟨H.iwr_off .min_rts, 188, 56⟩, by simp, by simp only; omega⟩
  · exact ⟨⟨H.iwr_off .txpower_capa, 244, 4⟩, by simp, by simp only; omega⟩
  · exact ⟨⟨H.iwr_off .txpower, 248, 56⟩, by simp, by simp only; omega⟩
  · exact ⟨⟨H.iwr_off .avg_qual, 304, 4⟩, by simp, by simp only; omega⟩

theorem legacy_source_unique (H : Headers) (i : Nat) (b b' : Block)
    (hb : b ∈ legacy_blocks H) (hb' : b' ∈ legacy_blocks H)
    (h : b.src ≤ i ∧ i < b.src + b.len) (h' : b'.src ≤ i ∧ i < b'.src + b'.len) :
    b' = b := by
  rw [legacy_blocks_eq] at hb hb'
  simp only [List.mem_cons, List.mem_singleton, List.not_mem_nil, or_false] at hb hb'
  rcases hb with rfl | rfl | rfl | rfl | rfl | rfl | rfl | rfl <;>
    rcases hb' with rfl | rfl | rfl | rfl | rfl | rfl | rfl | rfl <;>
    first
      | rfl
      | (exfalso; simp only at h h'; omega)

/-- C19: the source ranges of the eight block copies are consecutive, from 0 to
`sizeof(struct iw15_range)` = 308, so every byte of the WE-15 record lies in the source of
exactly one copy; for `struct iw_range` of Wireless Extensions 22 the eight destinations
are pairwise disjoint and lie within the record; and whenever the destinations are
pairwise disjoint, the record holds every byte of the WE-15 record at the place where its
copy puts it. -/
theorem legacy_blocks_relocation (H : Headers) (range buffer : Mem) :
    (legacy_blocks H).map (fun b => (b.src, b.src + b.len)) =
        [(0, 12), (12, 144), (144, 152), (152, 188), (188, 244), (244, 248), (248, 304),
          (304, 308)] ∧
      sizeofStruct iw15_range = 308 ∧
      (∀ i, i < sizeofStruct iw15_range →
        ∃ b ∈ legacy_blocks H, (b.src ≤ i ∧ i < b.src + b.len) ∧
          ∀ b' ∈ legacy_blocks H, b'.src ≤ i ∧ i < b'.src + b'.len → b' = b) ∧
      (legacy_blocks headers_we22).Pairwise Block.disjoint ∧
      (∀ b ∈ legacy_blocks headers_we22, b.dst + b.len ≤ headers_we22.sizeof_iw_range) ∧
      ((legacy_blocks H).Pairwise Block.disjoint →
        ∀ i, i < sizeofStruct iw15_range →
          ∃ b ∈ legacy_blocks H, (b.src ≤ i ∧ i < b.src + b.len) ∧
            legacy_copy H range buffer (b.dst + (i - b.src)) = buffer i) := by
  have hsize : sizeofStruct iw15_range = 308 := by decide
  refine ⟨by rw [legacy_blocks_eq]; rfl, hsize, ?_, by decide, by decide, ?_⟩
  · intro i hi
    obtain ⟨b, hb, hin⟩ := legacy_source_exists H i (by omega)
    exact ⟨b, hb, hin, fun b' hb' hin' => legacy_source_unique H i b b' hb hb' hin hin'⟩
  · intro hp i hi
    obtain ⟨b, hb, hin⟩ := legacy_source_exists H i (by omega)
    refine ⟨b, hb, hin, ?_⟩
    rw [legacy_copy_eq_run_blocks,
      run_blocks_copied buffer (legacy_blocks H) _ hp b hb (i - b.src) (by omega)]
    congr 1
    omega

/-- Witness of C19: with the Wireless Extensions 22 headers, byte 280 of the buffer is
found in the record at the place where its block copy puts it. -/
theorem legacy_blocks_relocation_witness :
    ∃ b ∈ legacy_blocks headers_we22, (b.src ≤ 280 ∧ 280 < b.src + b.len) ∧
      legacy_copy headers_we22 (demoState 12).range (demoState 12).buffer
        (b.dst + (280 - b.src)) = (demoState 12).buffer 280 :=
  (legacy_blocks_relocation headers_we22 (demoState 12).range
    (demoState 12).buffer).2.2.2.2.2 (by decide) 280 (by decide)

/-! ## Rate resolver: the guard interval -/

theorem getRate_of_index (s : MACHTTRANSMIT_SETTING) (k : Nat) (m : Int) (hk : k ≤ 165)
    (h : getRate_index s = ((k : Int), m)) :
    getRate s = some (Int.tdiv (MCSMappingRateTable.getD k 0 * m * 5) 10) := by
  rw [getRate_eq, h]
  simp only [getRate_clamp_of_bounds (Int.ofNat_nonneg k) (by omega : (k : Int) ≤ 165),
    Int.toNat_ofNat]

theorem ht_short_gi_table :
    ∀ n, n < 48 → MCSMappingRateTable.getD (12 + n) 0 ≤ MCSMappingRateTable.getD (60 + n) 0 := by
  decide

theorem vht_short_gi_table :
    ∀ n, n < 29 →
      MCSMappingRateTable.getD (108 + n) 0 ≤ MCSMappingRateTable.getD (137 + n) 0 := by
  decide

theorem rate_mono (a b m : Int) (ha : 0 ≤ a) (hab : a ≤ b) (hm : 0 ≤ m) :
    Int.tdiv (a * m * 5) 10 ≤ Int.tdiv (b * m * 5) 10 := by
  have h1 : a * m ≤ b * m := Int.mul_le_mul_of_nonneg_right hab hm
  have h0 : 0 ≤ a * m := Int.mul_nonneg ha hm
  rw [tdiv10_of_nonneg (by omega), tdiv10_of_nonneg (by omega)]
  omega

theorem getRate_index_ht (MCS ldpc BW GI STBC MODE : Nat)
    (hmode : MODE = MODE_HTMIX ∨ MODE = MODE_HTGREENFIELD) (hbw : BW < 256)
    (hgi : GI < 256) (hmcs : MCS < 256) :
    getRate_index ⟨MCS, ldpc, BW, GI, STBC, MODE⟩ =
      (((12 + (BW * 24 + GI * 48 + MCS) : Nat) : Int), 1) := by
  unfold getRate_index
  simp only [uchar_of_lt hbw, uchar_of_lt hgi, uchar_of_lt hmcs]
  rcases hmode with h | h <;> subst h <;>
    simp [ MODE_HTMIX, MODE_HTGREENFIELD, MODE_VHT] <;> omega

/-- C20: the short guard interval never lowers the rate. For an HT setting (HT-mixed or
HT-greenfield, bandwidth 20 or 40 MHz, MCS in 0..23) and for a VHT setting (bandwidth
20 MHz with per-stream mcs in 0..8, or 40 or 80 MHz with per-stream mcs in 0..9, any
stream count `s ≥ 1`), `getRate` with ShortGI 1 returns at least what it returns with
ShortGI 0 on the otherwise identical setting. -/
theorem short_gi_not_slower :
    (∀ MCS ldpc BW STBC MODE : Nat,
      MODE = MODE_HTMIX ∨ MODE = MODE_HTGREENFIELD → BW = BW_20 ∨ BW = BW_40 → MCS ≤ 23 →
      ∃ r0 r1 : Int, getRate ⟨MCS, ldpc, BW, 0, STBC, MODE⟩ = some r0 ∧
        getRate ⟨MCS, ldpc, BW, 1, STBC, MODE⟩ = some r1 ∧ r0 ≤ r1) ∧
      (∀ s mcs ldpc BW STBC : Nat,
        1 ≤ s → BW = BW_20 ∨ BW = BW_40 ∨ BW = BW_80 → mcs < vht_subtable_len BW →
        ∃ r0 r1 : Int, getRate ⟨(s - 1) * 16 + mcs, ldpc, BW, 0, STBC, MODE_VHT⟩ = some r0 ∧
          getRate ⟨(s - 1) * 16 + mcs, ldpc, BW, 1, STBC, MODE_VHT⟩ = some r1 ∧ r0 ≤ r1) := by
  constructor
  · intro MCS ldpc BW STBC MODE hmode hbw hmcs
    have hbw2 : BW ≤ 1 := by
      rcases hbw with h | h <;> rw [h] <;> decide
    have h0 := getRate_index_ht MCS ldpc BW 0 STBC MODE hmode (by omega) (by omega)
      (by omega)
    have h1 := getRate_index_ht MCS ldpc BW 1 STBC MODE hmode (by omega) (by omega)
      (by omega)
    have e0 : 12 + (BW * 24 + 0 * 48 + MCS) = 12 + (BW * 24 + MCS) := by omega
    have e1 : 12 + (BW * 24 + 1 * 48 + MCS) = 60 + (BW * 24 + MCS) := by omega
    rw [e0] at h0
    rw [e1] at h1
    refine ⟨_, _, getRate_of_index _ _ _ (by omega) h0, getRate_of_index _ _ _ (by omega) h1,
      ?_⟩
    exact rate_mono _ _ 1 (table_nonneg _) (ht_short_gi_table _ (by omega)) (by decide)
  · intro s mcs ldpc BW STBC hs hbw hmcs
    obtain ⟨t, rfl⟩ : ∃ t, s = t + 1 := ⟨s - 1, by omega⟩
    have e1 : t + 1 - 1 = t := by omega
    rw [e1]
    have hlen9 : mcs ≤ 9 := by
      unfold vht_subtable_len at hmcs
      split_ifs at hmcs <;> omega
    obtain ⟨n, hn, hbase⟩ : ∃ n, n < 29 ∧
        spec_vht_base BW + (mcs : Int) = ((108 + n : Nat) : Int) := by
      unfold spec_vht_base
      rcases hbw with h | h | h <;> subst h
      · refine ⟨mcs, ?_, by simp [BW_20]⟩
        simp only [vht_subtable_len, if_true] at hmcs
        omega
      · exact ⟨9 + mcs, by omega, by simp [BW_20, BW_40]; omega⟩
      · exact ⟨19 + mcs, by omega, by simp [BW_20, BW_40, BW_80]; omega⟩
    have h0 : getRate_index ⟨t * 16 + mcs, ldpc, BW, 0, STBC, MODE_VHT⟩ =
        (((108 + n : Nat) : Int), ((t + 1 : Nat) : Int)) := by
      rw [getRate_index_vht _ (le_refl _) hbw (by simp only; omega),
        getRate_vht_ss_packed t mcs hlen9, ← hbase]
      simp
    have h1 : getRate_index ⟨t * 16 + mcs, ldpc, BW, 1, STBC, MODE_VHT⟩ =
        (((137 + n : Nat) : Int), ((t + 1 : Nat) : Int)) := by
      rw [getRate_index_vht _ (le_refl _) hbw (by simp only; omega),
        getRate_vht_ss_packed t mcs hlen9]
      simp only [Prod.mk.injEq, and_true]
      push_cast at hbase ⊢
      omega
    refine ⟨_, _, getRate_of_index _ _ _ (by omega) h0, getRate_of_index _ _ _ (by omega) h1,
      ?_⟩
    exact rate_mono _ _ _ (table_nonneg _) (vht_short_gi_table _ hn) (Int.ofNat_nonneg _)

/-- Witness of C20: HT-mixed, 20 MHz, MCS 21 gives 156 with the long and 158 with the
short guard interval. -/
theorem short_gi_not_slower_witness :
    getRate ⟨21, 0, BW_20, 0, 0, MODE_HTMIX⟩ = some 156 ∧
      getRate ⟨21, 0, BW_20, 1, 0, MODE_HTMIX⟩ = some 158 ∧
      ∃ r0 r1 : Int, getRate ⟨21, 0, BW_20, 0, 0, MODE_HTMIX⟩ = some r0 ∧
        getRate ⟨21, 0, BW_20, 1, 0, MODE_HTMIX⟩ = some r1 ∧ r0 ≤ r1 :=
  ⟨by decide, by decide,
    short_gi_not_slower.1 21 0 BW_20 0 MODE_HTMIX (by decide) (by decide) (by decide)⟩

/-! ## Rate resolver: the iNIC variant -/

theorem getRate_inic_eq (i : MACHTTRANSMIT_SETTING_INIC) :
    getRate_inic i = some (Int.tdiv (MCSMappingRateTable.getD
      (getRate_clamp (getRate_inic_index i)).toNat 0 * 5) 10) := by
  unfold getRate_inic
  obtain ⟨h0, h1⟩ := getRate_clamp_bounds (getRate_inic_index i)
  simp only [read_of_bounds h0 h1, Option.map_some']

theorem getRate_index_below_vht (s : MACHTTRANSMIT_SETTING) (i : MACHTTRANSMIT_SETTING_INIC)
    (hlow : s.MODE < MODE_VHT) (hMODE : i.MODE = s.MODE) (hBW : i.BW = s.BW)
    (hGI : i.ShortGI = s.ShortGI) (hMCS : i.MCS = s.MCS) :
    getRate_index s = (getRate_inic_index i, 1) := by
  unfold getRate_index getRate_inic_index
  rw [hMODE, hBW, hGI, hMCS]
  simp only [ge_iff_le, if_neg (Nat.not_le.mpr hlow)]
  split_ifs <;> rfl

/-- C21: for a setting whose mode is CCK, OFDM, HT-mixed or HT-greenfield, and an iNIC
setting with the same MODE, BW, ShortGI and MCS field values, `getRate_inic` returns the
same rate as `getRate`, and both return one. -/
theorem getRate_inic_agrees (s : MACHTTRANSMIT_SETTING) (i : MACHTTRANSMIT_SETTING_INIC)
    (hmode : s.MODE = MODE_CCK ∨ s.MODE = MODE_OFDM ∨ s.MODE = MODE_HTMIX ∨
      s.MODE = MODE_HTGREENFIELD)
    (hMODE : i.MODE = s.MODE) (hBW : i.BW = s.BW) (hGI : i.ShortGI = s.ShortGI)
    (hMCS : i.MCS = s.MCS) :
    getRate_inic i = getRate s ∧ ∃ r, getRate s = some r := by
  have hlow : s.MODE < MODE_VHT := by
    rcases hmode with h | h | h | h <;> rw [h] <;> decide
  refine ⟨?_, _, getRate_eq s⟩
  rw [getRate_inic_eq, getRate_eq, getRate_index_below_vht s i hlow hMODE hBW hGI hMCS]
  simp only [Int.mul_one]

/-- Witness of C21: HT-greenfield, 40 MHz, short GI, MCS 7 gives 150 with both
resolvers. -/
theorem getRate_inic_agrees_witness :
    getRate_inic ⟨7, BW_40, 1, 0, MODE_HTGREENFIELD⟩ =
        getRate ⟨7, 0, BW_40, 1, 0, MODE_HTGREENFIELD⟩ ∧
      getRate ⟨7, 0, BW_40, 1, 0, MODE_HTGREENFIELD⟩ = some 150 :=
  ⟨(getRate_inic_agrees ⟨7, 0, BW_40, 1, 0, MODE_HTGREENFIELD⟩
      ⟨7, BW_40, 1, 0, MODE_HTGREENFIELD⟩ (by decide) rfl rfl rfl rfl).1, by decide⟩

end RalinkInfo
